import Mathlib

/-!
Verification development for the Blender sequencer image cache
(`source/blender/sequencer/intern/image_cache.cc`, namespace `blender::seq`).

The cache is shallowly embedded as follows.

* Pointers (strips, `Main`, `Scene`, `ImBuf`, cache keys) are modelled by
  natural-number identities.  The intrusive hash table `SeqCache::hash` is an
  association list from key identity to entry; `link_prev`/`link_next` are
  `Option Nat` references into the same table, exactly mirroring the intrusive
  chain of the source.
* `float` fields appear at two levels.  The hash/equality functions
  (`seq_cache_hashhash` / `seq_cache_hashcmp`) read the raw bit pattern of
  `frame_index` (`*(const uint *)&key->frame_index`) while comparing floats
  with IEEE `!=`; these are modelled bit-exactly on binary32 bit patterns.
  The cache state machine itself only ever handles integral frames in the
  claims under study, so there `timeline_frame`/`frame_index` are exact `Int`s.
* Machine integers (`uint` hash values) are `Nat` reduced `% 2^32` wherever
  overflow can occur.
* Collaborators that live outside this translation unit (strip time ranges,
  `give_frame_index`, the prefetch job state, process memory accounting, the
  disk cache) are injected through an `Env` record, following the spec's
  interface-boundary description of these collaborators.
* Code whose evaluation can crash returns `Option`, with `none` the crash:
  `seq_cache_choose_key` dereferences both candidate pointers before its
  null checks, so a null (or dangling) candidate is undefined behaviour, and
  the crash propagates through `seq_cache_get_item_for_removal`,
  `seq_cache_recycle_item`, `seq_cache_get`, `seq_cache_put` and
  `seq_cache_put_if_possible`.
-/

/-! ### IEEE-754 binary32 bit-pattern model

`RenderData::motion_blur_shutter` and `SeqCacheKey::frame_index` are C
`float`s.  `seq_cache_hashhash` hashes the raw bit pattern of `frame_index`
and `int(motion_blur_shutter * 100.0f)`, while `seq_cache_hashcmp` compares
both with IEEE `!=`.  A binary32 value is represented by its bit pattern
`b : Nat` (sign bit 31, exponent bits 23..30, mantissa bits 0..22). -/

def f32Sign (b : Nat) : Nat := b / 2 ^ 31 % 2

def f32Exp (b : Nat) : Nat := b / 2 ^ 23 % 2 ^ 8

def f32Man (b : Nat) : Nat := b % 2 ^ 23

def f32IsNaN (b : Nat) : Bool := decide (f32Exp b = 255) && decide (f32Man b ≠ 0)

/-- All bits other than the sign bit are zero: the pattern denotes `+0.0` or `-0.0`. -/
def f32IsZeroPat (b : Nat) : Bool := decide (b % 2 ^ 31 = 0)

/-- IEEE-754 equality on binary32 bit patterns: NaN is unequal to everything
(including itself), `+0.0 = -0.0`, and otherwise distinct patterns denote
distinct values (binary32 representation is injective away from zero). -/
def f32Beq (a b : Nat) : Bool :=
  if f32IsNaN a || f32IsNaN b then false
  else if f32IsZeroPat a && f32IsZeroPat b then true
  else decide (a = b)

/-- `int(x * 100.0f)` for a binary32 bit pattern `x`: decode the exact value
(normal: `(-1)^s * (2^23 + man) * 2^(exp-150)`; subnormal: `(-1)^s * man *
2^-149`), multiply by 100 and truncate toward zero.  Computed on naturals
(the quotient of nonnegative numerators by `2^150` is the floor of the
magnitude, and negating it afterwards is truncation toward zero).  The
source's float-by-float product rounds before the cast, which can differ at
ties, but the term stays a function of the shutter's IEEE value, which is all
the results below use.  `Inf`/`NaN` patterns (exponent 255) carry no finite
value (the cast is UB in C) and are mapped to `0`; the choice is irrelevant:
NaN never satisfies the comparison and the infinities have unique patterns. -/
def f32TimesHundredTrunc (b : Nat) : Int :=
  if f32Exp b = 255 then 0
  else
    let mag : Nat :=
      if f32Exp b = 0 then f32Man b * 100 * 2 / 2 ^ 150
      else (2 ^ 23 + f32Man b) * 100 * 2 ^ f32Exp b / 2 ^ 150
    if f32Sign b = 1 then -(mag : Int) else (mag : Int)

/-- Reduction of an `int`/`intptr_t` value into C's `uint`, two's complement. -/
def toU32 (i : Int) : Nat := (i % (2 ^ 32 : Int)).toNat

/-! ### Render-context fingerprint

The fields of `RenderData` (plus `scene->r.views_format`, which the source
reads through the scene pointer; it is carried alongside the scene identity
here) that `seq_cmp_render_data` / `seq_hash_render_data` consume. -/

structure Fingerprint where
  preview_render_size : Int
  rectx : Int
  recty : Int
  bmain : Nat
  scene : Nat
  /-- binary32 bit pattern of `RenderData::motion_blur_shutter`. -/
  motion_blur_shutter : Nat
  motion_blur_samples : Int
  views_format : Int
  view_id : Int
deriving DecidableEq

/-- `seq_cmp_render_data`: returns `true` when the two contexts DIFFER
(the `GHashCmpFP` convention used by `BLI_ghash`). -/
def seq_cmp_render_data (a b : Fingerprint) : Bool :=
  decide (a.preview_render_size ≠ b.preview_render_size) ||
  decide (a.rectx ≠ b.rectx) || decide (a.recty ≠ b.recty) ||
  decide (a.bmain ≠ b.bmain) || decide (a.scene ≠ b.scene) ||
  !f32Beq a.motion_blur_shutter b.motion_blur_shutter ||
  decide (a.motion_blur_samples ≠ b.motion_blur_samples) ||
  decide (a.views_format ≠ b.views_format) ||
  decide (a.view_id ≠ b.view_id)

/-- `seq_hash_render_data`.  `uint` arithmetic is `Nat` modulo `2^32`; the
`int(a->motion_blur_shutter * 100.0f)` term is `f32TimesHundredTrunc`. -/
def seq_hash_render_data (a : Fingerprint) : Nat :=
  let rval := toU32 (a.rectx + a.recty)
  let rval := (rval ^^^ toU32 a.preview_render_size) % 2 ^ 32
  let rval := (rval ^^^ a.bmain * 2 ^ 6) % 2 ^ 32
  let rval := (rval ^^^ a.scene * 2 ^ 6) % 2 ^ 32
  let rval := (rval ^^^ toU32 (f32TimesHundredTrunc a.motion_blur_shutter * 2 ^ 10)) % 2 ^ 32
  let rval := (rval ^^^ toU32 (a.motion_blur_samples * 2 ^ 16)) % 2 ^ 32
  let rval := (rval ^^^ toU32 ((a.views_format * 2 + a.view_id) * 2 ^ 24)) % 2 ^ 32
  rval

/-- `SeqCacheKey` as seen by the hash table's hash/equality callbacks:
`frame_index` is kept as its binary32 bit pattern, strips as identities. -/
structure SeqCacheKeyFP where
  strip : Nat
  frame_index_bits : Nat
  type : Nat
  context : Fingerprint
deriving DecidableEq

/-- `seq_cache_hashhash`: xors the raw bits of `frame_index` into the hash
(`*(const uint *)&key->frame_index`). -/
def seq_cache_hashhash (key : SeqCacheKeyFP) : Nat :=
  let rval := seq_hash_render_data key.context
  let rval := (rval ^^^ key.frame_index_bits) % 2 ^ 32
  let rval := (rval + key.type) % 2 ^ 32
  let rval := (rval ^^^ key.strip * 2 ^ 6) % 2 ^ 32
  rval

/-- `seq_cache_hashcmp`: returns `true` when the keys DIFFER; `frame_index`
is compared with IEEE `!=` (so `+0.0` equals `-0.0` here). -/
def seq_cache_hashcmp (a b : SeqCacheKeyFP) : Bool :=
  decide (a.strip ≠ b.strip) ||
  !f32Beq a.frame_index_bits b.frame_index_bits ||
  decide (a.type ≠ b.type) ||
  seq_cmp_render_data a.context b.context

/-! ### Stage and cache flags

`SEQ_CACHE_STORE_*`, `SEQ_CACHE_OVERRIDE` and `SEQ_CACHE_PREFETCH_ENABLE` are
declared in `DNA_sequence_types.h`, which is not among the provided sources.
Modelled from the spec: the stage is "one of {Raw, Preprocessed, Composite,
FinalOutput} (bitmask-capable)", so the flags are distinct single bits; none
of the results below depends on the particular bit positions. -/

def SEQ_CACHE_STORE_RAW : Nat := 1

def SEQ_CACHE_STORE_PREPROCESSED : Nat := 2

def SEQ_CACHE_STORE_COMPOSITE : Nat := 4

def SEQ_CACHE_STORE_FINAL_OUT : Nat := 8

def SEQ_CACHE_OVERRIDE : Nat := 16

def SEQ_CACHE_PREFETCH_ENABLE : Nat := 32

/-! ### Cache state -/

/-- One hash-table slot: the `SeqCacheKey` together with its `SeqCacheItem`
(`item->ibuf`, an `ImBuf` identity — the source never stores a null `ibuf`:
`seq_cache_put` rejects a null image and the disk-read path checks for null
before inserting, so the merged representation keeps a plain `Nat`). -/
structure SeqCacheEntry where
  strip : Nat
  frame_index : Int
  type : Nat
  context : Fingerprint
  task_id : Int
  is_temp_cache : Bool
  link_prev : Option Nat
  link_next : Option Nat
  ibuf : Nat
deriving DecidableEq

/-- The key fields produced by `seq_cache_populate_key` (the
`link_prev = link_next = nullptr`, `is_temp_cache = true` initialisation of
the source is applied where the entry is materialised, in
`seq_cache_put_ex`). -/
structure SeqCacheKeyData where
  strip : Nat
  frame_index : Int
  type : Nat
  context : Fingerprint
  task_id : Int
deriving DecidableEq

/-- `SeqCache`: the per-scene cache object.  `entries` is the `GHash`
(association list keyed by key identity, in insertion order), `last_key` the
chain tail, `next_id` the allocator for fresh key identities, `disk_cache`
whether the lazily created disk-cache object exists. -/
structure SeqCache where
  entries : List (Nat × SeqCacheEntry)
  last_key : Option Nat
  next_id : Nat
  disk_cache : Bool
deriving DecidableEq

/-- `ImBuf` reference counts, indexed by buffer identity. -/
def Refs : Type := Nat → Int

/-- `scene->ed->cache` (created lazily) together with the global `ImBuf`
reference counts. -/
structure World where
  cache : Option SeqCache
  refs : Refs

/-- `RenderData` as consumed by the cache: the fingerprint fields plus the
control flags and the task id. -/
structure RenderData where
  fp : Fingerprint
  skip_cache : Bool
  is_proxy_render : Bool
  is_prefetch_render : Bool
  for_render : Bool
  task_id : Int

/-- External collaborators, per the spec's interface boundary: strip time
ranges and flags (`SEQ_time_*`, `strip->cache_flag`, `strip->type &
STRIP_TYPE_EFFECT`), the media-relative mapping `give_frame_index`, the scene
(`ed->cache_flag`, `r.cfra`), the prefetch job state, process memory
accounting (`MEM_get_memory_in_use` split into a non-cache base plus the
cache's buffer sizes, `U.memcachelimit`), and the disk-cache tier. -/
structure Env where
  stripStart : Nat → Int
  stripLeft : Nat → Int
  stripRight : Nat → Int
  stripIsEffect : Nat → Bool
  stripCacheFlag : Nat → Nat
  giveFrameIndex : Nat → Int → Int
  sceneCacheFlag : Nat
  cfra : Int
  prefetchRunning : Bool
  prefetchStart : Int
  prefetchEnd : Int
  memBase : Nat
  memLimit : Nat
  ibufSize : Nat → Nat
  diskEnabled : Bool
  diskRead : SeqCacheKeyData → Option Nat
  prefetchOrigCtx : RenderData → RenderData
  prefetchOrigStrip : Nat → Nat

/-! ### Association-list primitives (the `BLI_ghash` surface the cache uses) -/

def lookupId : List (Nat × SeqCacheEntry) → Nat → Option SeqCacheEntry
  | [], _ => none
  | p :: ps, i => if p.1 = i then some p.2 else lookupId ps i

def setEntry : List (Nat × SeqCacheEntry) → Nat → (SeqCacheEntry → SeqCacheEntry) →
    List (Nat × SeqCacheEntry)
  | [], _, _ => []
  | p :: ps, i, f =>
    if p.1 = i then (p.1, f p.2) :: setEntry ps i f else p :: setEntry ps i f

def removeId : List (Nat × SeqCacheEntry) → Nat → List (Nat × SeqCacheEntry)
  | [], _ => []
  | p :: ps, i => if p.1 = i then removeId ps i else p :: removeId ps i

/-- State-level analogue of `seq_cache_hashcmp` (exact integral
`frame_index`): `true` when the entry's key DIFFERS from the probe key. -/
def seq_cache_key_differs (e : SeqCacheEntry) (k : SeqCacheKeyData) : Bool :=
  decide (e.strip ≠ k.strip) || decide (e.frame_index ≠ k.frame_index) ||
  decide (e.type ≠ k.type) || seq_cmp_render_data e.context k.context

/-- `BLI_ghash_lookup` with the cache's comparator. -/
def findEntry : List (Nat × SeqCacheEntry) → SeqCacheKeyData → Option (Nat × SeqCacheEntry)
  | [], _ => none
  | p :: ps, k => if seq_cache_key_differs p.2 k then findEntry ps k else some p

/-- `IMB_refImBuf`. -/
def bumpRef (r : Refs) (i : Nat) : Refs := fun x => if x = i then r x + 1 else r x

/-- `IMB_freeImBuf` (reference drop; deallocation at zero is not observable
at this level). -/
def dropRef (r : Refs) (i : Nat) : Refs := fun x => if x = i then r x - 1 else r x

/-! ### Frame mapping and key population -/

/-- `seq_cache_timeline_frame_to_frame_index`: raw, non-effect entries map
into the strip's source media range; everything else is the offset from the
strip's start frame. -/
def seq_cache_timeline_frame_to_frame_index (env : Env) (strip : Nat)
    (timeline_frame : Int) (type : Nat) : Int :=
  if env.stripIsEffect strip = false ∧ type = SEQ_CACHE_STORE_RAW then
    env.giveFrameIndex strip timeline_frame
  else
    timeline_frame - env.stripStart strip

/-- `seq_cache_key_timeline_frame_get`. -/
def seq_cache_key_timeline_frame_get (env : Env) (e : SeqCacheEntry) : Int :=
  e.frame_index + env.stripStart e.strip

/-- `get_stored_types_flag`. -/
def get_stored_types_flag (env : Env) (strip : Nat) : Nat :=
  let flag :=
    if env.stripCacheFlag strip &&& SEQ_CACHE_OVERRIDE ≠ 0 then env.stripCacheFlag strip
    else env.sceneCacheFlag
  flag ||| (env.sceneCacheFlag &&& SEQ_CACHE_STORE_FINAL_OUT)

/-- `seq_cache_populate_key`. -/
def seq_cache_populate_key (env : Env) (context : RenderData) (strip : Nat)
    (timeline_frame : Int) (type : Nat) : SeqCacheKeyData :=
  { strip := strip
    frame_index := seq_cache_timeline_frame_to_frame_index env strip timeline_frame type
    type := type
    context := context.fp
    task_id := context.task_id }

/-! ### Core cache operations -/

/-- `seq_cache_create` (the fresh cache object; mutexes, pools and the disk
timestamp have no observable state here). -/
def seq_cache_create : SeqCache :=
  { entries := [], last_key := none, next_id := 0, disk_cache := false }

/-- `seq_cache_put_ex`.  Returns the updated cache and reference counts plus
the identity allocated for the inserted key. -/
def seq_cache_put_ex (env : Env) (c : SeqCache) (refs : Refs)
    (key : SeqCacheKeyData) (ibuf : Nat) : SeqCache × Refs × Nat :=
  let stored_types_flag := get_stored_types_flag env key.strip
  let retained : Bool := decide (stored_types_flag &&& key.type ≠ 0)
  let id := c.next_id
  let e : SeqCacheEntry :=
    { strip := key.strip, frame_index := key.frame_index, type := key.type
      context := key.context, task_id := key.task_id
      is_temp_cache := !retained
      link_prev := if retained then c.last_key else none
      link_next := none, ibuf := ibuf }
  let entries1 := c.entries ++ [(id, e)]
  let refs1 := bumpRef refs ibuf
  let temp_last_key := c.last_key
  let entries2 :=
    if e.is_temp_cache = false then
      match temp_last_key with
      | some p => setEntry entries1 p fun pe => { pe with link_next := some id }
      | none => entries1
    else entries1
  let lk : Option Nat := if key.type = SEQ_CACHE_STORE_FINAL_OUT then none else some id
  ({ entries := entries2, last_key := lk, next_id := id + 1, disk_cache := c.disk_cache },
   refs1, id)

/-- `seq_cache_get_ex`: lookup; on a hit the artifact gains a reference. -/
def seq_cache_get_ex (c : SeqCache) (refs : Refs) (key : SeqCacheKeyData) :
    Refs × Option Nat :=
  match findEntry c.entries key with
  | some p => (bumpRef refs p.2.ibuf, some p.2.ibuf)
  | none => (refs, none)

/-- `seq_cache_key_unlink`: doubly-linked-list splice on the intrusive chain. -/
def seq_cache_key_unlink (c : SeqCache) (id : Nat) : SeqCache :=
  match lookupId c.entries id with
  | none => c
  | some e =>
    let entries1 :=
      match e.link_next with
      | some n => setEntry c.entries n fun ne => { ne with link_prev := e.link_prev }
      | none => c.entries
    let entries2 :=
      match e.link_prev with
      | some p => setEntry entries1 p fun pe => { pe with link_next := e.link_next }
      | none => entries1
    { c with entries := entries2 }

/-- `BLI_ghash_remove` with `seq_cache_keyfree`/`seq_cache_valfree`: the
entry leaves the table and its `ImBuf` reference is dropped. -/
def seq_cache_remove (c : SeqCache) (refs : Refs) (id : Nat) : SeqCache × Refs :=
  match lookupId c.entries id with
  | none => (c, refs)
  | some e => ({ c with entries := removeId c.entries id }, dropRef refs e.ibuf)

/-- `seq_cache_choose_key`.  The source computes both candidate timeline
frames up front, BEFORE the null checks: `seq_cache_key_timeline_frame_get`
dereferences each candidate pointer unconditionally, so a null candidate — or
a dangling identity, whose pointee this state no longer carries — is a crash
(undefined behaviour), modelled as `none` in the outer `Option`.  The
subsequent null guards and single-candidate arms of the source are thereby
unreachable: evaluation only gets past the frame computations when both
candidates are present.  The surviving distance branch keeps the source's
quirk that only the key pointers are swapped while the frame variables keep
their original values. -/
def seq_cache_choose_key (env : Env) (c : SeqCache) (lkey rkey : Option Nat) :
    Option (Option Nat) :=
  match lkey, rkey with
  | some l, some r =>
    match lookupId c.entries l, lookupId c.entries r with
    | some le, some re =>
      let lkey_tml_frame := seq_cache_key_timeline_frame_get env le
      let rkey_tml_frame := seq_cache_key_timeline_frame_get env re
      some (
        if env.sceneCacheFlag &&& SEQ_CACHE_PREFETCH_ENABLE ≠ 0 ∧ env.prefetchRunning then
          if lkey_tml_frame < env.prefetchStart ∨ lkey_tml_frame > env.prefetchEnd then
            some l
          else if rkey_tml_frame < env.prefetchStart ∨ rkey_tml_frame > env.prefetchEnd then
            some r
          else
            none
        else
          let lr := if lkey_tml_frame > rkey_tml_frame then (r, l) else (l, r)
          let l_diff := env.cfra - lkey_tml_frame
          let r_diff := rkey_tml_frame - env.cfra
          if l_diff > r_diff then some lr.1 else some lr.2)
    | _, _ => none
  | _, _ => none

/-- One step of the candidate scan in `seq_cache_get_item_for_removal`:
temp entries and non-tails (`link_next != nullptr`) are skipped; among the
rest the minimal/maximal timeline frames are tracked (strict comparisons:
ties keep the earlier-scanned candidate).  The accumulator carries
(identity, timeline frame) pairs.  The defensive `!item->ibuf` branch of the
source is unreachable here because every stored entry carries a buffer. -/
def gifr_step (env : Env) (acc : Option (Nat × Int) × Option (Nat × Int))
    (p : Nat × SeqCacheEntry) : Option (Nat × Int) × Option (Nat × Int) :=
  if p.2.is_temp_cache || p.2.link_next.isSome then acc
  else
    let f := seq_cache_key_timeline_frame_get env p.2
    let lacc :=
      match acc.1 with
      | none => some (p.1, f)
      | some lf => if f < lf.2 then some (p.1, f) else some lf
    let racc :=
      match acc.2 with
      | none => some (p.1, f)
      | some rf => if f > rf.2 then some (p.1, f) else some rf
    (lacc, racc)

/-- `seq_cache_get_item_for_removal`.  The chooser is called unconditionally
on whatever the scan produced; if the scan found no candidate (all entries
temp or non-tail, or an empty table) the chooser dereferences the null
candidates and the call crashes (`none`). -/
def seq_cache_get_item_for_removal (env : Env) (c : SeqCache) : Option (Option Nat) :=
  let acc := c.entries.foldl (gifr_step env) (none, none)
  seq_cache_choose_key env c (acc.1.map Prod.fst) (acc.2.map Prod.fst)

/-- Backward half of `seq_cache_recycle_linked` (the `base = prev` loop).
The fuel argument strictly exceeds the number of entries wherever the walk is
invoked, so it never runs out before a removal or a break: each iteration
either stops or removes a present entry.  A `link_prev` pointing to an
identity no longer in the table is the source's "removed and replaced"
situation (the pointer would be dangling); it fails the
`prev->link_next == base` consistency check and breaks the walk. -/
def recycle_walk_prev : Nat → SeqCache → Refs → Option Nat → SeqCache × Refs
  | 0, c, refs, _ => (c, refs)
  | _ + 1, c, refs, none => (c, refs)
  | fuel + 1, c, refs, some b =>
    match lookupId c.entries b with
    | none => (c, refs)
    | some e =>
      match e.link_prev with
      | some p =>
        match lookupId c.entries p with
        | some pe =>
          if pe.link_next ≠ some b then
            ({ c with entries := setEntry c.entries b fun x => { x with link_prev := none } },
             refs)
          else
            let c1 := seq_cache_key_unlink c b
            let cr := seq_cache_remove c1 refs b
            recycle_walk_prev fuel cr.1 cr.2 (some p)
        | none =>
          ({ c with entries := setEntry c.entries b fun x => { x with link_prev := none } },
           refs)
      | none =>
        let c1 := seq_cache_key_unlink c b
        let cr := seq_cache_remove c1 refs b
        recycle_walk_prev fuel cr.1 cr.2 none

/-- Forward half of `seq_cache_recycle_linked` (the `base = next` loop). -/
def recycle_walk_next : Nat → SeqCache → Refs → Option Nat → SeqCache × Refs
  | 0, c, refs, _ => (c, refs)
  | _ + 1, c, refs, none => (c, refs)
  | fuel + 1, c, refs, some b =>
    match lookupId c.entries b with
    | none => (c, refs)
    | some e =>
      match e.link_next with
      | some n =>
        match lookupId c.entries n with
        | some ne =>
          if ne.link_prev ≠ some b then
            ({ c with entries := setEntry c.entries b fun x => { x with link_next := none } },
             refs)
          else
            let c1 := seq_cache_key_unlink c b
            let cr := seq_cache_remove c1 refs b
            recycle_walk_next fuel cr.1 cr.2 (some n)
        | none =>
          ({ c with entries := setEntry c.entries b fun x => { x with link_next := none } },
           refs)
      | none =>
        let c1 := seq_cache_key_unlink c b
        let cr := seq_cache_remove c1 refs b
        recycle_walk_next fuel cr.1 cr.2 none

/-- `seq_cache_recycle_linked`: remember `base->link_next`, walk backward
from `base`, then forward from the remembered next. -/
def seq_cache_recycle_linked (c : SeqCache) (refs : Refs) (base : Nat) :
    SeqCache × Refs :=
  let next := (lookupId c.entries base).bind fun e => e.link_next
  let cr := recycle_walk_prev (c.entries.length + 1) c refs (some base)
  recycle_walk_next (cr.1.entries.length + 1) cr.1 cr.2 next

/-- Memory in use: process baseline plus this cache's buffers (the source
compares `U.memcachelimit` against global `MEM_get_memory_in_use`; the split
into `memBase` + buffer sizes makes the accounting injectable, as the spec's
design notes prescribe for deterministic pressure). -/
def cacheMemUsed (env : Env) (c : SeqCache) : Nat :=
  env.memBase + (c.entries.map fun p => env.ibufSize p.2.ibuf).sum

/-- `seq_cache_is_full`. -/
def seq_cache_is_full (env : Env) (c : SeqCache) : Bool :=
  decide (env.memLimit < cacheMemUsed env c)

/-- The `while (seq_cache_is_full())` loop of `seq_cache_recycle_item`.
Fuel strictly exceeds the number of entries at entry to the loop; every
iteration that continues removes at least the chosen (present) entry, so the
fuel is never exhausted.  A crash inside the candidate selection (the
no-candidate null dereference) propagates. -/
def recycle_loop (env : Env) : Nat → SeqCache → Refs → Option (Bool × SeqCache × Refs)
  | 0, c, refs => some (false, c, refs)
  | fuel + 1, c, refs =>
    if seq_cache_is_full env c then
      match seq_cache_get_item_for_removal env c with
      | none => none
      | some (some finalkey) =>
        let cr := seq_cache_recycle_linked c refs finalkey
        recycle_loop env fuel cr.1 cr.2
      | some none => some (false, c, refs)
    else some (true, c, refs)

/-- `seq_cache_recycle_item`. -/
def seq_cache_recycle_item (env : Env) (w : World) : Option (Bool × World) :=
  match w.cache with
  | none => some (false, w)
  | some c =>
    (recycle_loop env (c.entries.length + 1) c w.refs).map fun r =>
      (r.1, { cache := some r.2.1, refs := r.2.2 })

/-- Backward half of `seq_cache_set_temp_cache_linked`: mark `base` and all
its `link_prev` predecessors temp.  The source follows raw pointers with no
membership test; an absent identity (dangling pointer, unreachable for a live
chain) ends the walk. -/
def set_temp_walk_prev : Nat → SeqCache → Option Nat → SeqCache
  | 0, c, _ => c
  | _ + 1, c, none => c
  | fuel + 1, c, some b =>
    match lookupId c.entries b with
    | none => c
    | some e =>
      set_temp_walk_prev fuel
        { c with entries := setEntry c.entries b fun x => { x with is_temp_cache := true } }
        e.link_prev

/-- Forward half of `seq_cache_set_temp_cache_linked`. -/
def set_temp_walk_next : Nat → SeqCache → Option Nat → SeqCache
  | 0, c, _ => c
  | _ + 1, c, none => c
  | fuel + 1, c, some b =>
    match lookupId c.entries b with
    | none => c
    | some e =>
      set_temp_walk_next fuel
        { c with entries := setEntry c.entries b fun x => { x with is_temp_cache := true } }
        e.link_next

/-- `seq_cache_set_temp_cache_linked`. -/
def seq_cache_set_temp_cache_linked (c : SeqCache) (base : Option Nat) : SeqCache :=
  match base with
  | none => c
  | some b =>
    let next := (lookupId c.entries b).bind fun e => e.link_next
    let c1 := set_temp_walk_prev (c.entries.length + 1) c (some b)
    set_temp_walk_next (c1.entries.length + 1) c1 next

/-! ### API-level operations -/

/-- `seq_cache_get`.  Strips are always-valid identities here, so the
source's `!strip` guards have no counterpart; the prefetch-context
redirection is the injected collaborator mapping.  The disk tier is consulted
on a RAM miss unless `for_render` is set; a disk hit is re-inserted (for
`FINAL_OUT` only after successful recycling — a path on which the recycling
crash propagates). -/
def seq_cache_get (env : Env) (w : World) (context : RenderData) (strip : Nat)
    (timeline_frame : Int) (type : Nat) : Option (World × Option Nat) :=
  if context.skip_cache || context.is_proxy_render then some (w, none)
  else
    let cs :=
      if context.is_prefetch_render then (env.prefetchOrigCtx context, env.prefetchOrigStrip strip)
      else (context, strip)
    let context := cs.1
    let strip := cs.2
    let c0 := match w.cache with | none => seq_cache_create | some c => c
    let key := seq_cache_populate_key env context strip timeline_frame type
    let ri := seq_cache_get_ex c0 w.refs key
    match ri.2 with
    | some ib => some ({ cache := some c0, refs := ri.1 }, some ib)
    | none =>
      if context.for_render then some ({ cache := some c0, refs := ri.1 }, none)
      else if env.diskEnabled then
        let c1 := { c0 with disk_cache := true }
        match env.diskRead key with
        | none => some ({ cache := some c1, refs := ri.1 }, none)
        | some ib =>
          if type ≠ SEQ_CACHE_STORE_FINAL_OUT then
            let cr := seq_cache_put_ex env c1 ri.1 key ib
            some ({ cache := some cr.1, refs := cr.2.1 }, some ib)
          else
            match seq_cache_recycle_item env { cache := some c1, refs := ri.1 } with
            | none => none
            | some rw =>
              if rw.1 then
                match rw.2.cache with
                | some c2 =>
                  let cr := seq_cache_put_ex env c2 rw.2.refs key ib
                  some ({ cache := some cr.1, refs := cr.2.1 }, some ib)
                | none => some (rw.2, some ib)
              else some (rw.2, some ib)
      else some ({ cache := some c0, refs := ri.1 }, none)

/-- `seq_cache_put`.  The duplicate-check fetch drops its reference and
aborts the store on a hit.  On a miss the key is allocated and inserted;
`for_render` then downgrades the freshly inserted entry to temp (after
`seq_cache_put_ex` has already linked it).  The disk write is a collaborator
call with no effect on the in-memory state (note that, unlike
`seq_cache_get`, the source discards the `seq_disk_cache_create` result
here).  The `i == nullptr` guard has no counterpart (buffers are always-valid
identities). -/
def seq_cache_put (env : Env) (w : World) (context : RenderData) (strip : Nat)
    (timeline_frame : Int) (type : Nat) (i : Nat) : Option World :=
  if context.skip_cache || context.is_proxy_render then some w
  else
    let cs :=
      if context.is_prefetch_render then (env.prefetchOrigCtx context, env.prefetchOrigStrip strip)
      else (context, strip)
    let context := cs.1
    let strip := cs.2
    match seq_cache_get env w context strip timeline_frame type with
    | none => none
    | some wt =>
      match wt.2 with
      | some test => some { wt.1 with refs := dropRef wt.1.refs test }
      | none =>
        let c0 := match wt.1.cache with | none => seq_cache_create | some c => c
        let key := seq_cache_populate_key env context strip timeline_frame type
        let cr := seq_cache_put_ex env c0 wt.1.refs key i
        let c2 :=
          if context.for_render then
            { cr.1 with entries := setEntry cr.1.entries cr.2.2 fun x => { x with is_temp_cache := true } }
          else cr.1
        some { cache := some c2, refs := cr.2.1 }

/-- `seq_cache_put_if_possible`.  The recycling crash (candidate scan over a
full cache with no evictable entry) propagates. -/
def seq_cache_put_if_possible (env : Env) (w : World) (context : RenderData)
    (strip : Nat) (timeline_frame : Int) (type : Nat) (ibuf : Nat) :
    Option (Bool × World) :=
  let cs :=
    if context.is_prefetch_render then (env.prefetchOrigCtx context, env.prefetchOrigStrip strip)
    else (context, strip)
  let context := cs.1
  let strip := cs.2
  match seq_cache_recycle_item env w with
  | none => none
  | some rw =>
    if rw.1 then
      (seq_cache_put env rw.2 context strip timeline_frame type ibuf).map fun w2 => (true, w2)
    else
      match rw.2.cache with
      | some c =>
        let c1 := seq_cache_set_temp_cache_linked c c.last_key
        some (false, { cache := some { c1 with last_key := none }, refs := rw.2.refs })
      | none => some (false, rw.2)

/-! ### Range invalidation -/

/-- Removal condition of the `seq_cache_cleanup_strip` scan.  The condition
reads only fields that no cache operation ever mutates (`type`, `strip`,
`frame_index`), so evaluating it on the iteration snapshot is exact. -/
def cleanup_should_remove (env : Env) (strip : Nat)
    (range_start range_end rs_changed re_changed : Int)
    (inv_comp inv_src : Nat) (e : SeqCacheEntry) : Bool :=
  let kf := seq_cache_key_timeline_frame_get env e
  if e.type &&& inv_comp ≠ 0 ∧ range_start ≤ kf ∧ kf ≤ range_end then true
  else if e.type &&& inv_src ≠ 0 ∧ e.strip = strip ∧ rs_changed ≤ kf ∧ kf ≤ re_changed then
    true
  else false

/-- The scan-and-remove loop of `seq_cache_cleanup_strip`: each matching
entry is unlinked (against the live state) and removed. -/
def cleanup_pass (env : Env) (strip : Nat)
    (range_start range_end rs_changed re_changed : Int) (inv_comp inv_src : Nat) :
    List (Nat × SeqCacheEntry) → SeqCache × Refs → SeqCache × Refs
  | [], st => st
  | p :: ps, st =>
    if cleanup_should_remove env strip range_start range_end rs_changed re_changed
        inv_comp inv_src p.2 then
      let c1 := seq_cache_key_unlink st.1 p.1
      let st1 := seq_cache_remove c1 st.2 p.1
      cleanup_pass env strip range_start range_end rs_changed re_changed inv_comp inv_src ps st1
    else
      cleanup_pass env strip range_start range_end rs_changed re_changed inv_comp inv_src ps st

/-- `seq_cache_cleanup_strip` (the spec's `invalidate_range`).  Final-output
stages are matched against `[range_start, range_end]` — the intersection of
the two strips' handle ranges unless `force_strip_changed_range` — while the
intermediate stages are matched against the full handle range of
`strip_changed` and must belong to `strip`.  The disk-cache invalidation is a
collaborator call with no in-memory effect.  The chain tail is reset. -/
def seq_cache_cleanup_strip (env : Env) (w : World) (strip strip_changed : Nat)
    (invalidate_types : Nat) (force_strip_changed_range : Bool) : World :=
  match w.cache with
  | none => w
  | some c =>
    let rs_changed := env.stripLeft strip_changed
    let re_changed := env.stripRight strip_changed
    let range_start :=
      if force_strip_changed_range then rs_changed else max rs_changed (env.stripLeft strip)
    let range_end :=
      if force_strip_changed_range then re_changed else min re_changed (env.stripRight strip)
    let inv_comp := invalidate_types &&& SEQ_CACHE_STORE_FINAL_OUT
    let inv_src := invalidate_types &&&
      (SEQ_CACHE_STORE_RAW ||| SEQ_CACHE_STORE_PREPROCESSED ||| SEQ_CACHE_STORE_COMPOSITE)
    let st := cleanup_pass env strip range_start range_end rs_changed re_changed
      inv_comp inv_src c.entries (c, w.refs)
    { cache := some { st.1 with last_key := none }, refs := st.2 }

/-! ### Statistics/UI iteration -/

/-- `cache_iterate`.  The callbacks are the UI/statistics consumers
(`callback_init count`, `callback_iter strip timeline_frame cache_type`,
each returning an interrupt request); they observe entries but the iteration
itself mutates nothing except the chain tail, which is always reset.  Both
arms of the timeline-frame computation reduce to
`frame_index + time_start_frame_get(strip)`, as in the source. -/
def cache_iterate (env : Env) (w : World) (callback_init : Nat → Bool)
    (callback_iter : Nat → Int → Nat → Bool) : World × Bool :=
  match w.cache with
  | none => (w, false)
  | some c =>
    let interrupt0 := callback_init c.entries.length
    let interrupt := c.entries.foldl
      (fun intr p =>
        if intr then intr
        else
          callback_iter p.2.strip
            (if p.2.type &&& SEQ_CACHE_STORE_FINAL_OUT ≠ 0 then
              seq_cache_key_timeline_frame_get env p.2
            else p.2.frame_index + env.stripStart p.2.strip)
            p.2.type)
      interrupt0
    ({ cache := some { c with last_key := none }, refs := w.refs }, interrupt)

/-! ### Association-list lemmas -/

theorem lookupId_append (l l2 : List (Nat × SeqCacheEntry)) (i : Nat) :
    lookupId (l ++ l2) i =
      match lookupId l i with
      | some e => some e
      | none => lookupId l2 i := by
  induction l with
  | nil => simp [lookupId]
  | cons p ps ih =>
    by_cases h : p.1 = i <;> simp [lookupId, h, ih]

theorem lookupId_setEntry (l : List (Nat × SeqCacheEntry)) (i : Nat)
    (f : SeqCacheEntry → SeqCacheEntry) (j : Nat) :
    lookupId (setEntry l i f) j =
      if j = i then (lookupId l j).map f else lookupId l j := by
  induction l with
  | nil => simp [lookupId, setEntry]
  | cons p ps ih =>
    by_cases hp : p.1 = i
    · simp only [setEntry, if_pos hp]
      by_cases hj : p.1 = j
      · have hji : j = i := by omega
        simp [lookupId, hj, hji]
      · simp [lookupId, hj, ih]
    · simp only [setEntry, if_neg hp]
      by_cases hj : p.1 = j
      · have hji : ¬j = i := by omega
        simp [lookupId, hj, hji]
      · simp [lookupId, hj, ih]

theorem lookupId_removeId (l : List (Nat × SeqCacheEntry)) (i j : Nat) :
    lookupId (removeId l i) j = if j = i then none else lookupId l j := by
  induction l with
  | nil => simp [lookupId, removeId]
  | cons p ps ih =>
    by_cases hp : p.1 = i
    · simp only [removeId, if_pos hp]
      by_cases hj : j = i
      · subst hj
        simp [ih]
      · have : ¬p.1 = j := by omega
        simp [ih, hj, lookupId, this]
    · simp only [removeId, if_neg hp]
      by_cases hj : p.1 = j
      · have hji : ¬j = i := by omega
        simp [lookupId, hj, hji]
      · simp [lookupId, hj, ih]

theorem setEntry_length (l : List (Nat × SeqCacheEntry)) (i : Nat)
    (f : SeqCacheEntry → SeqCacheEntry) : (setEntry l i f).length = l.length := by
  induction l with
  | nil => simp [setEntry]
  | cons p ps ih =>
    by_cases hp : p.1 = i <;> simp [setEntry, hp, ih]

theorem lookupId_length_pos (l : List (Nat × SeqCacheEntry)) (i : Nat)
    (e : SeqCacheEntry) (h : lookupId l i = some e) : 1 ≤ l.length := by
  cases l with
  | nil => simp [lookupId] at h
  | cons p ps => simp

theorem findEntry_append (l l2 : List (Nat × SeqCacheEntry)) (k : SeqCacheKeyData) :
    findEntry (l ++ l2) k =
      match findEntry l k with
      | some p => some p
      | none => findEntry l2 k := by
  induction l with
  | nil => simp [findEntry]
  | cons p ps ih =>
    by_cases h : seq_cache_key_differs p.2 k <;> simp [findEntry, h, ih]

theorem findEntry_eq_none (l : List (Nat × SeqCacheEntry)) (k : SeqCacheKeyData)
    (h : ∀ p ∈ l, seq_cache_key_differs p.2 k = true) : findEntry l k = none := by
  induction l with
  | nil => simp [findEntry]
  | cons p ps ih =>
    have hp := h p (by simp)
    simp [findEntry, hp]
    exact ih fun q hq => h q (by simp [hq])

theorem recycle_walk_prev_none (fuel : Nat) (c : SeqCache) (refs : Refs) :
    recycle_walk_prev fuel c refs none = (c, refs) := by
  cases fuel <;> simp [recycle_walk_prev]

theorem recycle_walk_next_none (fuel : Nat) (c : SeqCache) (refs : Refs) :
    recycle_walk_next fuel c refs none = (c, refs) := by
  cases fuel <;> simp [recycle_walk_next]

/-! ### Concrete fixtures for witnesses and counterexamples -/

def fp0 : Fingerprint :=
  { preview_render_size := 0, rectx := 0, recty := 0, bmain := 0, scene := 0
    motion_blur_shutter := 0, motion_blur_samples := 0, views_format := 0, view_id := 0 }

def ctx0 : RenderData :=
  { fp := fp0, skip_cache := false, is_proxy_render := false
    is_prefetch_render := false, for_render := false, task_id := 0 }

def envBase : Env :=
  { stripStart := fun _ => 0, stripLeft := fun _ => 0, stripRight := fun _ => 0
    stripIsEffect := fun _ => false, stripCacheFlag := fun _ => 0
    giveFrameIndex := fun _ _ => 0, sceneCacheFlag := 0, cfra := 0
    prefetchRunning := false, prefetchStart := 0, prefetchEnd := 0
    memBase := 0, memLimit := 0, ibufSize := fun _ => 0, diskEnabled := false
    diskRead := fun _ => none, prefetchOrigCtx := fun cx => cx
    prefetchOrigStrip := fun s => s }

def mkEntry (strip : Nat) (fi : Int) (type : Nat) (temp : Bool)
    (lp ln : Option Nat) (ib : Nat) : SeqCacheEntry :=
  { strip := strip, frame_index := fi, type := type, context := fp0, task_id := 0
    is_temp_cache := temp, link_prev := lp, link_next := ln, ibuf := ib }

def envC1 : Env :=
  { envBase with
    sceneCacheFlag := SEQ_CACHE_PREFETCH_ENABLE,
    prefetchRunning := true, prefetchStart := 10, prefetchEnd := 20 }

def cacheC1 : SeqCache :=
  { entries := [(0, mkEntry 7 5 SEQ_CACHE_STORE_RAW false none none 100),
                (1, mkEntry 7 15 SEQ_CACHE_STORE_RAW false none none 101)]
    last_key := none, next_id := 2, disk_cache := false }

/-! ### Claim C1 -/

/-- Claim C1: when prefetch-based caching is enabled and a prefetch job is
running over `[prefetchStart, prefetchEnd]`, `seq_cache_choose_key` on two
present candidates returns a candidate only if its timeline frame lies
outside that window; the leftmost candidate is checked first, then the
rightmost; if both lie inside, no candidate is returned (the eviction round
fails without crashing). -/
theorem C1_prefetch_aware_eviction (env : Env) (c : SeqCache) (l r : Nat)
    (el er : SeqCacheEntry)
    (hl : lookupId c.entries l = some el) (hr : lookupId c.entries r = some er)
    (hen : env.sceneCacheFlag &&& SEQ_CACHE_PREFETCH_ENABLE ≠ 0)
    (hrun : env.prefetchRunning = true) :
    ((seq_cache_key_timeline_frame_get env el < env.prefetchStart ∨
      seq_cache_key_timeline_frame_get env el > env.prefetchEnd) →
        seq_cache_choose_key env c (some l) (some r) = some (some l)) ∧
    (¬(seq_cache_key_timeline_frame_get env el < env.prefetchStart ∨
       seq_cache_key_timeline_frame_get env el > env.prefetchEnd) →
     (seq_cache_key_timeline_frame_get env er < env.prefetchStart ∨
      seq_cache_key_timeline_frame_get env er > env.prefetchEnd) →
        seq_cache_choose_key env c (some l) (some r) = some (some r)) ∧
    (¬(seq_cache_key_timeline_frame_get env el < env.prefetchStart ∨
       seq_cache_key_timeline_frame_get env el > env.prefetchEnd) →
     ¬(seq_cache_key_timeline_frame_get env er < env.prefetchStart ∨
       seq_cache_key_timeline_frame_get env er > env.prefetchEnd) →
        seq_cache_choose_key env c (some l) (some r) = some none) ∧
    (∀ k ek, seq_cache_choose_key env c (some l) (some r) = some (some k) →
        lookupId c.entries k = some ek →
        seq_cache_key_timeline_frame_get env ek < env.prefetchStart ∨
        seq_cache_key_timeline_frame_get env ek > env.prefetchEnd) := by
  refine ⟨?_, ?_, ?_, ?_⟩
  · intro hlc
    simp only [seq_cache_choose_key, hl, hr]
    rw [if_pos ⟨hen, hrun⟩, if_pos hlc]
  · intro hlc hrc
    simp only [seq_cache_choose_key, hl, hr]
    rw [if_pos ⟨hen, hrun⟩, if_neg hlc, if_pos hrc]
  · intro hlc hrc
    simp only [seq_cache_choose_key, hl, hr]
    rw [if_pos ⟨hen, hrun⟩, if_neg hlc, if_neg hrc]
  · intro k ek hk hke
    by_cases hlc : seq_cache_key_timeline_frame_get env el < env.prefetchStart ∨
        seq_cache_key_timeline_frame_get env el > env.prefetchEnd
    · have hval : seq_cache_choose_key env c (some l) (some r) = some (some l) := by
        simp only [seq_cache_choose_key, hl, hr]
        rw [if_pos ⟨hen, hrun⟩, if_pos hlc]
      rw [hval] at hk
      have hkl : l = k := Option.some.inj (Option.some.inj hk)
      subst hkl
      rw [hl] at hke
      have hee : el = ek := Option.some.inj hke
      subst hee
      exact hlc
    · by_cases hrc : seq_cache_key_timeline_frame_get env er < env.prefetchStart ∨
          seq_cache_key_timeline_frame_get env er > env.prefetchEnd
      · have hval : seq_cache_choose_key env c (some l) (some r) = some (some r) := by
          simp only [seq_cache_choose_key, hl, hr]
          rw [if_pos ⟨hen, hrun⟩, if_neg hlc, if_pos hrc]
        rw [hval] at hk
        have hkr : r = k := Option.some.inj (Option.some.inj hk)
        subst hkr
        rw [hr] at hke
        have hee : er = ek := Option.some.inj hke
        subst hee
        exact hrc
      · have hval : seq_cache_choose_key env c (some l) (some r) = some none := by
          simp only [seq_cache_choose_key, hl, hr]
          rw [if_pos ⟨hen, hrun⟩, if_neg hlc, if_neg hrc]
        rw [hval] at hk
        have := Option.some.inj hk
        cases this

/-- Witness for C1: window `[10, 20]`, candidates at timeline frames 5 and
15 — the frame-5 candidate (identity 0) is chosen, never the frame-15 one. -/
theorem C1_witness :
    seq_cache_choose_key envC1 cacheC1 (some 0) (some 1) = some (some 0) :=
  (C1_prefetch_aware_eviction envC1 cacheC1 0 1
    (mkEntry 7 5 SEQ_CACHE_STORE_RAW false none none 100)
    (mkEntry 7 15 SEQ_CACHE_STORE_RAW false none none 101)
    (by decide) (by decide) (by decide) (by decide)).1 (by decide)

/-! ### Claim C9 -/

theorem f32IsZeroPat_trunc (b : Nat) (h : f32IsZeroPat b = true) :
    f32TimesHundredTrunc b = 0 := by
  have hz : b % 2 ^ 31 = 0 := by simpa [f32IsZeroPat] using h
  have hman : f32Man b = 0 := by
    simp only [f32Man]
    omega
  have hexp : f32Exp b = 0 := by
    simp only [f32Exp]
    omega
  simp [f32TimesHundredTrunc, hman, hexp]

theorem f32Beq_trunc (x y : Nat) (h : f32Beq x y = true) :
    f32TimesHundredTrunc x = f32TimesHundredTrunc y := by
  by_cases hnan : f32IsNaN x || f32IsNaN y
  · simp [f32Beq, hnan] at h
  · by_cases hz : f32IsZeroPat x && f32IsZeroPat y
    · rw [Bool.and_eq_true] at hz
      rw [f32IsZeroPat_trunc x hz.1, f32IsZeroPat_trunc y hz.2]
    · have : decide (x = y) = true := by
        simpa [f32Beq, hnan, hz] using h
      rw [of_decide_eq_true this]

def keyFPa : SeqCacheKeyFP :=
  { strip := 0, frame_index_bits := 0, type := SEQ_CACHE_STORE_RAW, context := fp0 }

/-- Same key content as `keyFPa` except that `frame_index` is `-0.0`
(bit pattern `0x80000000`) instead of `+0.0`. -/
def keyFPb : SeqCacheKeyFP :=
  { strip := 0, frame_index_bits := 2 ^ 31, type := SEQ_CACHE_STORE_RAW, context := fp0 }

/-- Counterexample to C9 as stated: a key whose `frame_index` is `+0.0` and
one whose `frame_index` is `-0.0` are deemed equal by `seq_cache_hashcmp`
(IEEE `==` treats the two zeros as equal) yet hash differently, because
`seq_cache_hashhash` xors in the raw bit pattern and the two patterns differ
in the sign bit. -/
theorem C9_counterexample :
    seq_cache_hashcmp keyFPa keyFPb = false ∧
    seq_cache_hashhash keyFPa ≠ seq_cache_hashhash keyFPb := by
  constructor
  · decide
  · decide

/-- Claim C9 (amended): if `seq_cache_hashcmp` deems two keys equal AND their
`frame_index` fields carry the same bit pattern (which rules out exactly the
`+0.0`/`-0.0` pair of the counterexample), then `seq_cache_hashhash` assigns
them the same hash value. -/
theorem C9_hashcmp_equal_implies_equal_hash (a b : SeqCacheKeyFP)
    (hcmp : seq_cache_hashcmp a b = false)
    (hfb : a.frame_index_bits = b.frame_index_bits) :
    seq_cache_hashhash a = seq_cache_hashhash b := by
  have hstrip : a.strip = b.strip := by
    by_contra hne
    simp [seq_cache_hashcmp, hne] at hcmp
  have htype : a.type = b.type := by
    by_contra hne
    simp [seq_cache_hashcmp, hne] at hcmp
  have hpr : a.context.preview_render_size = b.context.preview_render_size := by
    by_contra hne
    simp [seq_cache_hashcmp, seq_cmp_render_data, hne] at hcmp
  have hrx : a.context.rectx = b.context.rectx := by
    by_contra hne
    simp [seq_cache_hashcmp, seq_cmp_render_data, hne] at hcmp
  have hry : a.context.recty = b.context.recty := by
    by_contra hne
    simp [seq_cache_hashcmp, seq_cmp_render_data, hne] at hcmp
  have hbm : a.context.bmain = b.context.bmain := by
    by_contra hne
    simp [seq_cache_hashcmp, seq_cmp_render_data, hne] at hcmp
  have hsc : a.context.scene = b.context.scene := by
    by_contra hne
    simp [seq_cache_hashcmp, seq_cmp_render_data, hne] at hcmp
  have hsamp : a.context.motion_blur_samples = b.context.motion_blur_samples := by
    by_contra hne
    simp [seq_cache_hashcmp, seq_cmp_render_data, hne] at hcmp
  have hvf : a.context.views_format = b.context.views_format := by
    by_contra hne
    simp [seq_cache_hashcmp, seq_cmp_render_data, hne] at hcmp
  have hvid : a.context.view_id = b.context.view_id := by
    by_contra hne
    simp [seq_cache_hashcmp, seq_cmp_render_data, hne] at hcmp
  have hshut : f32Beq a.context.motion_blur_shutter b.context.motion_blur_shutter = true := by
    cases hb : f32Beq a.context.motion_blur_shutter b.context.motion_blur_shutter
    · simp [seq_cache_hashcmp, seq_cmp_render_data, hb] at hcmp
    · rfl
  have hctx : seq_hash_render_data a.context = seq_hash_render_data b.context := by
    simp only [seq_hash_render_data]
    rw [hpr, hrx, hry, hbm, hsc, f32Beq_trunc _ _ hshut, hsamp, hvf, hvid]
  simp only [seq_cache_hashhash]
  rw [hctx, hfb, htype, hstrip]

/-- Witness for C9: two identical keys are cmp-equal with equal frame bits,
and the amended theorem yields equal hashes. -/
theorem C9_witness : seq_cache_hashhash keyFPa = seq_cache_hashhash keyFPa :=
  C9_hashcmp_equal_implies_equal_hash keyFPa keyFPa (by decide) rfl

/-! ### `seq_cache_put_ex` toolbox -/

theorem lookupId_none_of_lt (l : List (Nat × SeqCacheEntry)) (i : Nat)
    (h : ∀ p ∈ l, p.1 < i) : lookupId l i = none := by
  induction l with
  | nil => rfl
  | cons p ps ih =>
    have hp := h p (by simp)
    have hne : ¬p.1 = i := by omega
    simp only [lookupId, if_neg hne]
    exact ih fun q hq => h q (by simp [hq])

theorem mem_of_lookupId (l : List (Nat × SeqCacheEntry)) (j : Nat) (e : SeqCacheEntry)
    (h : lookupId l j = some e) : (j, e) ∈ l := by
  induction l with
  | nil => simp [lookupId] at h
  | cons p ps ih =>
    obtain ⟨p1, p2⟩ := p
    by_cases hp : p1 = j
    · simp only [lookupId, if_pos hp] at h
      cases h
      subst hp
      exact List.mem_cons_self _ _
    · simp only [lookupId, if_neg hp] at h
      exact List.mem_cons_of_mem _ (ih h)

theorem put_ex_next_id (env : Env) (c : SeqCache) (refs : Refs)
    (key : SeqCacheKeyData) (ibuf : Nat) :
    (seq_cache_put_ex env c refs key ibuf).1.next_id = c.next_id + 1 := rfl

theorem put_ex_id (env : Env) (c : SeqCache) (refs : Refs)
    (key : SeqCacheKeyData) (ibuf : Nat) :
    (seq_cache_put_ex env c refs key ibuf).2.2 = c.next_id := rfl

theorem put_ex_refs (env : Env) (c : SeqCache) (refs : Refs)
    (key : SeqCacheKeyData) (ibuf : Nat) :
    (seq_cache_put_ex env c refs key ibuf).2.1 = bumpRef refs ibuf := rfl

theorem put_ex_last_key (env : Env) (c : SeqCache) (refs : Refs)
    (key : SeqCacheKeyData) (ibuf : Nat) :
    (seq_cache_put_ex env c refs key ibuf).1.last_key =
      if key.type = SEQ_CACHE_STORE_FINAL_OUT then none else some c.next_id := rfl

/-- Lookup of a non-new identity in the appended table is the old lookup. -/
theorem lookupId_append_single (l : List (Nat × SeqCacheEntry)) (i : Nat)
    (e : SeqCacheEntry) (j : Nat) (hj : j ≠ i) :
    lookupId (l ++ [(i, e)]) j = lookupId l j := by
  rw [lookupId_append]
  cases hx : lookupId l j with
  | some v => rfl
  | none => simp [lookupId, Ne.symm hj]

/-- Inserting leaves every other slot either untouched or — only possible
when it was the chain tail and the new entry is retained — with its
`link_next` redirected to the new identity. -/
theorem put_ex_lookup_other (env : Env) (c : SeqCache) (refs : Refs)
    (key : SeqCacheKeyData) (ibuf : Nat) (j : Nat) (hj : j ≠ c.next_id) :
    lookupId (seq_cache_put_ex env c refs key ibuf).1.entries j = lookupId c.entries j ∨
    (c.last_key = some j ∧
      lookupId (seq_cache_put_ex env c refs key ibuf).1.entries j =
        (lookupId c.entries j).map fun e => { e with link_next := some c.next_id }) := by
  cases hd : decide (get_stored_types_flag env key.strip &&& key.type ≠ 0) with
  | false =>
    left
    simp only [seq_cache_put_ex, hd]
    simp only [Bool.not_false]
    rw [if_neg (by simp)]
    exact lookupId_append_single _ _ _ _ hj
  | true =>
    cases hlkv : c.last_key with
    | none =>
      left
      simp [seq_cache_put_ex, hd, hlkv]
      exact lookupId_append_single _ _ _ _ hj
    | some p =>
      by_cases hjp : j = p
      · right
        refine ⟨by rw [hjp], ?_⟩
        simp [seq_cache_put_ex, hd, hlkv]
        rw [lookupId_setEntry, if_pos hjp, lookupId_append_single _ _ _ _ hj]
      · left
        simp [seq_cache_put_ex, hd, hlkv]
        rw [lookupId_setEntry, if_neg hjp, lookupId_append_single _ _ _ _ hj]

/-- When the chain tail is null at insertion time, every other slot is
exactly untouched. -/
theorem put_ex_lookup_other_fresh (env : Env) (c : SeqCache) (refs : Refs)
    (key : SeqCacheKeyData) (ibuf : Nat) (hlk : c.last_key = none) (j : Nat)
    (hj : j ≠ c.next_id) :
    lookupId (seq_cache_put_ex env c refs key ibuf).1.entries j = lookupId c.entries j := by
  rcases put_ex_lookup_other env c refs key ibuf j hj with h | ⟨hlk2, _⟩
  · exact h
  · rw [hlk] at hlk2
    cases hlk2

/-- The freshly inserted slot: key fields copied from the populated key,
`link_next` null, `link_prev` either the previous chain tail (retained case)
or null (temp case). -/
theorem put_ex_lookup_new (env : Env) (c : SeqCache) (refs : Refs)
    (key : SeqCacheKeyData) (ibuf : Nat)
    (hwf : ∀ p ∈ c.entries, p.1 < c.next_id)
    (hlk : ∀ t, c.last_key = some t → t < c.next_id) :
    ∃ e', lookupId (seq_cache_put_ex env c refs key ibuf).1.entries c.next_id = some e' ∧
      e'.strip = key.strip ∧ e'.frame_index = key.frame_index ∧ e'.type = key.type ∧
      e'.context = key.context ∧ e'.task_id = key.task_id ∧ e'.ibuf = ibuf ∧
      e'.link_next = none ∧ (e'.link_prev = c.last_key ∨ e'.link_prev = none) := by
  have hnone : lookupId c.entries c.next_id = none := lookupId_none_of_lt _ _ hwf
  cases hd : decide (get_stored_types_flag env key.strip &&& key.type ≠ 0) with
  | false =>
    have hlook : lookupId (seq_cache_put_ex env c refs key ibuf).1.entries c.next_id =
        some { strip := key.strip, frame_index := key.frame_index, type := key.type,
               context := key.context, task_id := key.task_id, is_temp_cache := true,
               link_prev := none, link_next := none, ibuf := ibuf } := by
      simp only [seq_cache_put_ex, hd]
      simp only [Bool.not_false]
      rw [if_neg (by simp), lookupId_append, hnone]
      simp [lookupId]
    exact ⟨_, hlook, rfl, rfl, rfl, rfl, rfl, rfl, rfl, Or.inr rfl⟩
  | true =>
    cases hlkv : c.last_key with
    | none =>
      have hlook : lookupId (seq_cache_put_ex env c refs key ibuf).1.entries c.next_id =
          some { strip := key.strip, frame_index := key.frame_index, type := key.type,
                 context := key.context, task_id := key.task_id, is_temp_cache := false,
                 link_prev := none, link_next := none, ibuf := ibuf } := by
        simp only [seq_cache_put_ex, hd, hlkv]
        simp only [Bool.not_true, if_pos trivial]
        rw [lookupId_append, hnone]
        simp [lookupId]
      exact ⟨_, hlook, rfl, rfl, rfl, rfl, rfl, rfl, rfl, Or.inr rfl⟩
    | some p =>
      have hp : p < c.next_id := hlk p hlkv
      have hlook : lookupId (seq_cache_put_ex env c refs key ibuf).1.entries c.next_id =
          some { strip := key.strip, frame_index := key.frame_index, type := key.type,
                 context := key.context, task_id := key.task_id, is_temp_cache := false,
                 link_prev := some p, link_next := none, ibuf := ibuf } := by
        simp only [seq_cache_put_ex, hd, hlkv]
        simp only [Bool.not_true, if_pos trivial]
        rw [lookupId_setEntry, if_neg (by omega : ¬c.next_id = p), lookupId_append, hnone]
        simp [lookupId]
      exact ⟨_, hlook, rfl, rfl, rfl, rfl, rfl, rfl, rfl, Or.inl (by simp [hlkv])⟩

theorem keys_setEntry (l : List (Nat × SeqCacheEntry)) (i : Nat)
    (f : SeqCacheEntry → SeqCacheEntry) :
    (setEntry l i f).map Prod.fst = l.map Prod.fst := by
  induction l with
  | nil => rfl
  | cons p ps ih =>
    by_cases hp : p.1 = i <;> simp [setEntry, hp, ih]

/-- Every identity present after an insertion is an old identity or the new
one; in particular the id bound grows with the allocator. -/
theorem put_ex_idbound (env : Env) (c : SeqCache) (refs : Refs)
    (key : SeqCacheKeyData) (ibuf : Nat)
    (hwf : ∀ p ∈ c.entries, p.1 < c.next_id) :
    ∀ p ∈ (seq_cache_put_ex env c refs key ibuf).1.entries,
      p.1 < (seq_cache_put_ex env c refs key ibuf).1.next_id := by
  intro p hp
  rw [put_ex_next_id]
  have hkeys : p.1 ∈ ((seq_cache_put_ex env c refs key ibuf).1.entries).map Prod.fst :=
    List.mem_map_of_mem _ hp
  have hsub : ((seq_cache_put_ex env c refs key ibuf).1.entries).map Prod.fst =
      (c.entries.map Prod.fst) ++ [c.next_id] := by
    cases hd : decide (get_stored_types_flag env key.strip &&& key.type ≠ 0) with
    | false =>
      simp only [seq_cache_put_ex, hd]
      simp only [Bool.not_false]
      rw [if_neg (by simp)]
      simp
    | true =>
      cases hlkv : c.last_key with
      | none =>
        simp [seq_cache_put_ex, hd, hlkv]
      | some q =>
        simp [seq_cache_put_ex, hd, hlkv]
        rw [keys_setEntry]
        simp
  rw [hsub] at hkeys
  rcases List.mem_append.mp hkeys with hmem | hmem
  · obtain ⟨q, hq, hqe⟩ := List.mem_map.mp hmem
    have := hwf q hq
    omega
  · simp at hmem
    omega

theorem option_all_bound (o : Option Nat) (n t : Nat)
    (h : o.all (fun x => decide (x < n)) = true) (ht : o = some t) : t < n := by
  subst ht
  simpa [Option.all] using h

/-! ### Claim C10 -/

/-- Claim C10: `cache_iterate` removes no entries and changes no entry's
stored artifact or fields (every lookup is unchanged) and leaves the
reference counts alone, but always resets the chain tail to null before
returning; consequently the first entry inserted afterwards starts a fresh
chain — its `link_prev`/`link_next` are null, every other slot is untouched
by that insertion, and no surviving entry links to it. -/
theorem C10_cache_iterate_resets_chain (env : Env) (w : World) (c : SeqCache)
    (cbi : Nat → Bool) (cbf : Nat → Int → Nat → Bool)
    (hc : w.cache = some c)
    (hwf : ∀ p ∈ c.entries, p.1 < c.next_id)
    (hwl : ∀ p ∈ c.entries,
      p.2.link_prev.all (fun t => decide (t < c.next_id)) = true ∧
      p.2.link_next.all (fun t => decide (t < c.next_id)) = true) :
    ∃ c', (cache_iterate env w cbi cbf).1.cache = some c' ∧
      (∀ j, lookupId c'.entries j = lookupId c.entries j) ∧
      c'.last_key = none ∧
      (cache_iterate env w cbi cbf).1.refs = w.refs ∧
      (∀ key ibuf refs, ∃ e',
        lookupId (seq_cache_put_ex env c' refs key ibuf).1.entries c'.next_id = some e' ∧
        e'.link_prev = none ∧ e'.link_next = none ∧
        (∀ j, j ≠ c'.next_id →
          lookupId (seq_cache_put_ex env c' refs key ibuf).1.entries j =
            lookupId c.entries j) ∧
        (∀ j e0, j ≠ c'.next_id →
          lookupId (seq_cache_put_ex env c' refs key ibuf).1.entries j = some e0 →
          e0.link_prev ≠ some c'.next_id ∧ e0.link_next ≠ some c'.next_id)) := by
  refine ⟨{ c with last_key := none }, ?_, fun j => rfl, rfl, ?_, ?_⟩
  · simp [cache_iterate, hc]
  · simp [cache_iterate, hc]
  · intro key ibuf refs
    have hwf2 : ∀ p ∈ ({ c with last_key := none } : SeqCache).entries,
        p.1 < ({ c with last_key := none } : SeqCache).next_id := hwf
    have hlk2 : ∀ t, ({ c with last_key := none } : SeqCache).last_key = some t →
        t < ({ c with last_key := none } : SeqCache).next_id := by
      intro t ht
      cases ht
    obtain ⟨e', hlook, _, _, _, _, _, _, hnext, hprev⟩ :=
      put_ex_lookup_new env { c with last_key := none } refs key ibuf hwf2 hlk2
    refine ⟨e', hlook, ?_, hnext, ?_, ?_⟩
    · rcases hprev with h | h
      · exact h
      · exact h
    · intro j hj
      exact put_ex_lookup_other_fresh env { c with last_key := none } refs key ibuf rfl j hj
    · intro j e0 hj hle
      rw [put_ex_lookup_other_fresh env { c with last_key := none } refs key ibuf rfl j hj] at hle
      have hmem : (j, e0) ∈ c.entries := mem_of_lookupId _ _ _ hle
      have hb := hwl _ hmem
      have hn : ({ c with last_key := none } : SeqCache).next_id = c.next_id := rfl
      constructor
      · intro hcontra
        have := option_all_bound _ _ _ hb.1 hcontra
        omega
      · intro hcontra
        have := option_all_bound _ _ _ hb.2 hcontra
        omega

def cacheC10 : SeqCache :=
  { entries := [(0, mkEntry 3 4 SEQ_CACHE_STORE_RAW false none none 50)]
    last_key := some 0, next_id := 1, disk_cache := false }

def refs0 : Refs := fun _ => 0

/-- Witness for C10 at a one-entry cache with trivial callbacks. -/
theorem C10_witness :
    ∃ c', (cache_iterate envBase { cache := some cacheC10, refs := refs0 }
        (fun _ => false) (fun _ _ _ => false)).1.cache = some c' ∧
      (∀ j, lookupId c'.entries j = lookupId cacheC10.entries j) ∧
      c'.last_key = none ∧
      (cache_iterate envBase { cache := some cacheC10, refs := refs0 }
        (fun _ => false) (fun _ _ _ => false)).1.refs =
        ({ cache := some cacheC10, refs := refs0 } : World).refs ∧
      (∀ key ibuf refs, ∃ e',
        lookupId (seq_cache_put_ex envBase c' refs key ibuf).1.entries c'.next_id = some e' ∧
        e'.link_prev = none ∧ e'.link_next = none ∧
        (∀ j, j ≠ c'.next_id →
          lookupId (seq_cache_put_ex envBase c' refs key ibuf).1.entries j =
            lookupId cacheC10.entries j) ∧
        (∀ j e0, j ≠ c'.next_id →
          lookupId (seq_cache_put_ex envBase c' refs key ibuf).1.entries j = some e0 →
          e0.link_prev ≠ some c'.next_id ∧ e0.link_next ≠ some c'.next_id)) :=
  C10_cache_iterate_resets_chain envBase _ cacheC10 _ _ rfl (by decide) (by decide)

/-! ### Claim C4 -/

def kRaw (fi : Int) : SeqCacheKeyData :=
  { strip := 0, frame_index := fi, type := SEQ_CACHE_STORE_RAW, context := fp0, task_id := 0 }

def kFin : SeqCacheKeyData :=
  { strip := 0, frame_index := 0, type := SEQ_CACHE_STORE_FINAL_OUT, context := fp0
    task_id := 0 }

def env4 : Env :=
  { envBase with
    sceneCacheFlag := SEQ_CACHE_STORE_RAW ||| SEQ_CACHE_STORE_FINAL_OUT }

def C4s1 : SeqCache := (seq_cache_put_ex env4 seq_cache_create refs0 kFin 10).1

def C4r1 : Refs := (seq_cache_put_ex env4 seq_cache_create refs0 kFin 10).2.1

def C4s2 : SeqCache := (seq_cache_put_ex env4 C4s1 C4r1 (kRaw 1) 11).1

def C4r2 : Refs := (seq_cache_put_ex env4 C4s1 C4r1 (kRaw 1) 11).2.1

def C4s3 : SeqCache := (seq_cache_put_ex env4 C4s2 C4r2 (kRaw 2) 12).1

/-- Counterexample to C4 as stated: insert a FinalOutput key, then a
retained raw key E (identity 1), then another retained raw key D
(identity 2), with no FinalOutput insertion in between.  D is "an entry
inserted after the FinalOutput insertion and before any further FinalOutput
insertion", yet its `link_prev` at insertion time is `some 1` (it is chained
onto E), not null — only the FIRST post-reset insertion starts with a null
`link_prev`. -/
theorem C4_counterexample :
    kFin.type = SEQ_CACHE_STORE_FINAL_OUT ∧
    (kRaw 2).type ≠ SEQ_CACHE_STORE_FINAL_OUT ∧
    (lookupId C4s3.entries 2).map SeqCacheEntry.link_prev = some (some 1) := by
  decide

/-- Claim C4 (amended): inserting a FinalOutput-stage entry resets the chain
tail to null; the FIRST entry E inserted after it starts a new chain
(`link_prev` null), and every entry inserted after the reset (here E and D,
with no further FinalOutput in between) is never linked to any entry that
existed before the FinalOutput insertion: D's backward link never reaches a
pre-existing identity, and no pre-existing slot ever links to E or D. -/
theorem C4_final_out_resets_chain (env : Env) (c : SeqCache) (refs : Refs)
    (kF kE kD : SeqCacheKeyData) (ibF ibE ibD : Nat)
    (s1 s2 s3 : SeqCache) (r1 r2 : Refs)
    (hF : kF.type = SEQ_CACHE_STORE_FINAL_OUT)
    (hE : kE.type ≠ SEQ_CACHE_STORE_FINAL_OUT)
    (hwf : ∀ p ∈ c.entries, p.1 < c.next_id)
    (hwl : ∀ p ∈ c.entries,
      p.2.link_prev.all (fun t => decide (t < c.next_id)) = true ∧
      p.2.link_next.all (fun t => decide (t < c.next_id)) = true)
    (h1 : seq_cache_put_ex env c refs kF ibF = (s1, r1, c.next_id))
    (h2 : seq_cache_put_ex env s1 r1 kE ibE = (s2, r2, c.next_id + 1))
    (h3 : (seq_cache_put_ex env s2 r2 kD ibD).1 = s3) :
    s1.last_key = none ∧
    (∃ eE, lookupId s3.entries (c.next_id + 1) = some eE ∧ eE.link_prev = none) ∧
    (∃ eD, lookupId s3.entries (c.next_id + 2) = some eD ∧ eD.link_next = none ∧
      ∀ j, j < c.next_id → eD.link_prev ≠ some j) ∧
    (∀ j e0, j < c.next_id → lookupId s3.entries j = some e0 →
      e0.link_prev ≠ some (c.next_id + 1) ∧ e0.link_prev ≠ some (c.next_id + 2) ∧
      e0.link_next ≠ some (c.next_id + 1) ∧ e0.link_next ≠ some (c.next_id + 2)) := by
  have hs1 : (seq_cache_put_ex env c refs kF ibF).1 = s1 := by rw [h1]
  have hs2 : (seq_cache_put_ex env s1 r1 kE ibE).1 = s2 := by rw [h2]
  have hr1 : (seq_cache_put_ex env c refs kF ibF).2.1 = r1 := by rw [h1]
  have hr2 : (seq_cache_put_ex env s1 r1 kE ibE).2.1 = r2 := by rw [h2]
  have hA : s1.last_key = none := by
    rw [← hs1, put_ex_last_key, if_pos hF]
  have hn1 : s1.next_id = c.next_id + 1 := by rw [← hs1, put_ex_next_id]
  have hwf1 : ∀ p ∈ s1.entries, p.1 < s1.next_id := by
    rw [← hs1]
    exact put_ex_idbound env c refs kF ibF hwf
  have hlkb1 : ∀ t, s1.last_key = some t → t < s1.next_id := by
    rw [hA]
    intro t ht
    cases ht
  obtain ⟨eE, hE2, _, _, _, _, _, _, hEnext, hEprev⟩ :=
    put_ex_lookup_new env s1 r1 kE ibE hwf1 hlkb1
  rw [hs2, hn1] at hE2
  have hEprevn : eE.link_prev = none := by
    rcases hEprev with h | h
    · rw [h, hA]
    · exact h
  have hn2 : s2.next_id = c.next_id + 2 := by rw [← hs2, put_ex_next_id, hn1]
  have hlk2v : s2.last_key = some (c.next_id + 1) := by
    rw [← hs2, put_ex_last_key, if_neg hE, hn1]
  have hwf2 : ∀ p ∈ s2.entries, p.1 < s2.next_id := by
    rw [← hs2]
    exact put_ex_idbound env s1 r1 kE ibE hwf1
  have hlkb2 : ∀ t, s2.last_key = some t → t < s2.next_id := by
    rw [hlk2v, hn2]
    intro t ht
    cases ht
    omega
  obtain ⟨eD, hD3, _, _, _, _, _, _, hDnext, hDprev⟩ :=
    put_ex_lookup_new env s2 r2 kD ibD hwf2 hlkb2
  rw [h3, hn2] at hD3
  refine ⟨hA, ?_, ?_, ?_⟩
  · -- E's slot in the final state: possibly link_next was redirected to D,
    -- but its link_prev is still none
    have hj : c.next_id + 1 ≠ s2.next_id := by omega
    rcases put_ex_lookup_other env s2 r2 kD ibD (c.next_id + 1) hj with hcase | ⟨_, hcase⟩
    · rw [h3] at hcase
      rw [hcase, hE2]
      exact ⟨eE, rfl, hEprevn⟩
    · rw [h3] at hcase
      rw [hcase, hE2]
      exact ⟨_, rfl, by simp [hEprevn]⟩
  · refine ⟨eD, hD3, hDnext, ?_⟩
    intro j hj hcontra
    rcases hDprev with h | h
    · rw [hlk2v] at h
      rw [h] at hcontra
      cases hcontra
      omega
    · rw [h] at hcontra
      cases hcontra
  · intro j e0 hjlt hle
    have hj3 : j ≠ s2.next_id := by omega
    rcases put_ex_lookup_other env s2 r2 kD ibD j hj3 with hcase3 | ⟨htail, _⟩
    · rw [h3] at hcase3
      rw [hcase3] at hle
      have hj2 : j ≠ s1.next_id := by omega
      rw [← hs2, put_ex_lookup_other_fresh env s1 r1 kE ibE hA j hj2] at hle
      have hj1 : j ≠ c.next_id := by omega
      rcases put_ex_lookup_other env c refs kF ibF j hj1 with hcase1 | ⟨_, hcase1⟩
      · rw [hs1] at hcase1
        rw [hcase1] at hle
        have hb := hwl _ (mem_of_lookupId _ _ _ hle)
        refine ⟨?_, ?_, ?_, ?_⟩ <;> intro hcontra
        · have := option_all_bound _ _ _ hb.1 hcontra
          omega
        · have := option_all_bound _ _ _ hb.1 hcontra
          omega
        · have := option_all_bound _ _ _ hb.2 hcontra
          omega
        · have := option_all_bound _ _ _ hb.2 hcontra
          omega
      · rw [hs1] at hcase1
        rw [hcase1] at hle
        cases hlc : lookupId c.entries j with
        | none =>
          rw [hlc] at hle
          cases hle
        | some e =>
          rw [hlc] at hle
          have hb := hwl _ (mem_of_lookupId _ _ _ hlc)
          cases hle
          refine ⟨?_, ?_, ?_, ?_⟩ <;> intro hcontra
          · simp only at hcontra
            have := option_all_bound _ _ _ hb.1 hcontra
            omega
          · simp only at hcontra
            have := option_all_bound _ _ _ hb.1 hcontra
            omega
          · simp only at hcontra
            have := Option.some.inj hcontra
            omega
          · simp only at hcontra
            have := Option.some.inj hcontra
            omega
    · rw [hlk2v] at htail
      cases htail
      omega

/-- Witness for C4's amended theorem on the concrete FinalOutput/E/D run. -/
theorem C4_witness :
    C4s1.last_key = none ∧
    (∃ eE, lookupId C4s3.entries (seq_cache_create.next_id + 1) = some eE ∧
      eE.link_prev = none) ∧
    (∃ eD, lookupId C4s3.entries (seq_cache_create.next_id + 2) = some eD ∧
      eD.link_next = none ∧
      ∀ j, j < seq_cache_create.next_id → eD.link_prev ≠ some j) ∧
    (∀ j e0, j < seq_cache_create.next_id → lookupId C4s3.entries j = some e0 →
      e0.link_prev ≠ some (seq_cache_create.next_id + 1) ∧
      e0.link_prev ≠ some (seq_cache_create.next_id + 2) ∧
      e0.link_next ≠ some (seq_cache_create.next_id + 1) ∧
      e0.link_next ≠ some (seq_cache_create.next_id + 2)) :=
  C4_final_out_resets_chain env4 seq_cache_create refs0 kFin (kRaw 1) (kRaw 2) 10 11 12
    C4s1 C4s2 C4s3 C4r1 C4r2 (by decide) (by decide) (by decide) (by decide) rfl rfl rfl

/-! ### `seq_cache_get`/`seq_cache_put` toolbox -/

theorem f32Beq_self (b : Nat) (h : f32IsNaN b = false) : f32Beq b b = true := by
  by_cases hz : f32IsZeroPat b <;> simp [f32Beq, h, hz]

theorem seq_cache_key_differs_self (key : SeqCacheKeyData) (e : SeqCacheEntry)
    (hs : e.strip = key.strip) (hf : e.frame_index = key.frame_index)
    (ht : e.type = key.type) (hcx : e.context = key.context)
    (hnan : f32IsNaN key.context.motion_blur_shutter = false) :
    seq_cache_key_differs e key = false := by
  simp [seq_cache_key_differs, hs, hf, ht, hcx, seq_cmp_render_data, f32Beq_self _ hnan]

theorem findEntry_none_all (l : List (Nat × SeqCacheEntry)) (k : SeqCacheKeyData)
    (h : findEntry l k = none) : ∀ p ∈ l, seq_cache_key_differs p.2 k = true := by
  induction l with
  | nil => simp
  | cons p ps ih =>
    intro q hq
    by_cases hp : seq_cache_key_differs p.2 k
    · simp only [findEntry, if_pos hp] at h
      rcases List.mem_cons.mp hq with hqe | hqm
      · rw [hqe]
        exact hp
      · exact ih h q hqm
    · simp only [findEntry, if_neg hp] at h
      cases h

/-- Updates that do not touch the key fields or the buffer leave the scan
result (identity and buffer) of `findEntry` unchanged. -/
theorem findEntry_map_setEntry (l : List (Nat × SeqCacheEntry)) (i : Nat)
    (k : SeqCacheKeyData) (g : SeqCacheEntry → SeqCacheEntry)
    (hg1 : ∀ e, seq_cache_key_differs (g e) k = seq_cache_key_differs e k)
    (hg2 : ∀ e, (g e).ibuf = e.ibuf) :
    (findEntry (setEntry l i g) k).map (fun p => (p.1, p.2.ibuf)) =
      (findEntry l k).map (fun p => (p.1, p.2.ibuf)) := by
  induction l with
  | nil => rfl
  | cons p ps ih =>
    by_cases hp : p.1 = i
    · simp only [setEntry, if_pos hp, findEntry, hg1]
      by_cases hd : seq_cache_key_differs p.2 k
      · simp only [if_pos hd]
        exact ih
      · simp only [if_neg hd, Option.map_some', hg2]
    · simp only [setEntry, if_neg hp, findEntry]
      by_cases hd : seq_cache_key_differs p.2 k
      · simp only [if_pos hd]
        exact ih
      · simp only [if_neg hd]

/-- A RAM hit in `seq_cache_get` (no skip/proxy/prefetch redirection):
returns the stored artifact with a bumped reference, touching nothing else. -/
theorem seq_cache_get_hit (env : Env) (w : World) (c : SeqCache) (ctx : RenderData)
    (strip : Nat) (tf : Int) (type : Nat) (pid pib : Nat)
    (hc : w.cache = some c)
    (hskip : ctx.skip_cache = false) (hproxy : ctx.is_proxy_render = false)
    (hpref : ctx.is_prefetch_render = false)
    (hfind : (findEntry c.entries (seq_cache_populate_key env ctx strip tf type)).map
      (fun p => (p.1, p.2.ibuf)) = some (pid, pib)) :
    seq_cache_get env w ctx strip tf type =
      some ({ cache := some c, refs := bumpRef w.refs pib }, some pib) := by
  cases hf : findEntry c.entries (seq_cache_populate_key env ctx strip tf type) with
  | none =>
    rw [hf] at hfind
    cases hfind
  | some p =>
    rw [hf] at hfind
    have hpib : p.2.ibuf = pib := by
      simp at hfind
      exact hfind.2
    simp [seq_cache_get, hskip, hproxy, hpref, hc, seq_cache_get_ex, hf, hpib]

/-- A RAM miss in `seq_cache_get` with the disk tier disabled: pure miss,
state unchanged apart from materialising the cache object. -/
theorem seq_cache_get_miss_nodisk (env : Env) (w : World) (c : SeqCache)
    (ctx : RenderData) (strip : Nat) (tf : Int) (type : Nat)
    (hc : w.cache = some c)
    (hskip : ctx.skip_cache = false) (hproxy : ctx.is_proxy_render = false)
    (hpref : ctx.is_prefetch_render = false) (hdisk : env.diskEnabled = false)
    (hfind : findEntry c.entries (seq_cache_populate_key env ctx strip tf type) = none) :
    seq_cache_get env w ctx strip tf type =
      some ({ cache := some c, refs := w.refs }, none) := by
  by_cases hfr : ctx.for_render = true
  · simp [seq_cache_get, hskip, hproxy, hpref, hc, seq_cache_get_ex, hfind, hfr]
  · simp [seq_cache_get, hskip, hproxy, hpref, hc, seq_cache_get_ex, hfind, hfr, hdisk]

/-- `seq_cache_put` with an equal key already stored: the duplicate-check
fetch hits, the fetched reference is dropped again, and the call is a
no-op — the cache object and every reference count are unchanged, and the
new artifact is not inserted. -/
theorem seq_cache_put_duplicate (env : Env) (w : World) (c : SeqCache)
    (ctx : RenderData) (strip : Nat) (tf : Int) (type : Nat) (i : Nat) (pid pib : Nat)
    (hc : w.cache = some c)
    (hskip : ctx.skip_cache = false) (hproxy : ctx.is_proxy_render = false)
    (hpref : ctx.is_prefetch_render = false)
    (hfind : (findEntry c.entries (seq_cache_populate_key env ctx strip tf type)).map
      (fun p => (p.1, p.2.ibuf)) = some (pid, pib)) :
    ∃ w2, seq_cache_put env w ctx strip tf type i = some w2 ∧
      w2.cache = w.cache ∧ (∀ x, w2.refs x = w.refs x) := by
  have hres := seq_cache_get_hit env w c ctx strip tf type pid pib hc hskip hproxy hpref hfind
  refine ⟨{ cache := some c, refs := dropRef (bumpRef w.refs pib) pib }, ?_, ?_, ?_⟩
  · simp [seq_cache_put, hskip, hproxy, hpref, hres]
  · rw [hc]
  · intro x
    by_cases hxe : x = pib <;> simp [dropRef, bumpRef, hxe]

/-- After an insertion of a previously-absent key, scanning for that key
finds the new slot (with the stored buffer). -/
theorem put_ex_findEntry (env : Env) (c : SeqCache) (refs : Refs)
    (key : SeqCacheKeyData) (ibuf : Nat)
    (hfind : findEntry c.entries key = none)
    (hnan : f32IsNaN key.context.motion_blur_shutter = false) :
    (findEntry (seq_cache_put_ex env c refs key ibuf).1.entries key).map
      (fun p => (p.1, p.2.ibuf)) = some (c.next_id, ibuf) := by
  cases hd : decide (get_stored_types_flag env key.strip &&& key.type ≠ 0) with
  | false =>
    simp only [seq_cache_put_ex, hd]
    simp only [Bool.not_false]
    rw [if_neg (by simp)]
    rw [findEntry_append, hfind]
    have hds : seq_cache_key_differs
        { strip := key.strip, frame_index := key.frame_index, type := key.type,
          context := key.context, task_id := key.task_id, is_temp_cache := true,
          link_prev := none, link_next := none, ibuf := ibuf } key = false :=
      seq_cache_key_differs_self key _ rfl rfl rfl rfl hnan
    simp [findEntry, hds]
  | true =>
    cases hlkv : c.last_key with
    | none =>
      simp only [seq_cache_put_ex, hd, hlkv]
      simp only [Bool.not_true, if_pos trivial]
      rw [findEntry_append, hfind]
      have hds : seq_cache_key_differs
          { strip := key.strip, frame_index := key.frame_index, type := key.type,
            context := key.context, task_id := key.task_id, is_temp_cache := false,
            link_prev := none, link_next := none, ibuf := ibuf } key = false :=
        seq_cache_key_differs_self key _ rfl rfl rfl rfl hnan
      simp [findEntry, hds]
    | some p =>
      simp only [seq_cache_put_ex, hd, hlkv]
      simp only [Bool.not_true, if_pos trivial]
      rw [findEntry_map_setEntry _ _ _ (fun pe => { pe with link_next := some c.next_id })
        (fun e => by simp [seq_cache_key_differs]) (fun e => rfl)]
      rw [findEntry_append, hfind]
      have hds : seq_cache_key_differs
          { strip := key.strip, frame_index := key.frame_index, type := key.type,
            context := key.context, task_id := key.task_id, is_temp_cache := false,
            link_prev := some p, link_next := none, ibuf := ibuf } key = false :=
        seq_cache_key_differs_self key _ rfl rfl rfl rfl hnan
      simp [findEntry, hds]

/-- `seq_cache_put` on a miss (disk tier disabled): the new key is allocated
and inserted (possibly downgraded to temp by `for_render`), the artifact
gains the cache's reference, and a subsequent scan for the same key finds
it. -/
theorem seq_cache_put_miss_inserts (env : Env) (w : World) (c : SeqCache)
    (ctx : RenderData) (strip : Nat) (tf : Int) (type : Nat) (i : Nat)
    (hc : w.cache = some c)
    (hskip : ctx.skip_cache = false) (hproxy : ctx.is_proxy_render = false)
    (hpref : ctx.is_prefetch_render = false) (hdisk : env.diskEnabled = false)
    (hfind : findEntry c.entries (seq_cache_populate_key env ctx strip tf type) = none)
    (hnan : f32IsNaN ctx.fp.motion_blur_shutter = false) :
    ∃ w2 c2, seq_cache_put env w ctx strip tf type i = some w2 ∧
      w2.cache = some c2 ∧
      c2.next_id = c.next_id + 1 ∧
      (findEntry c2.entries (seq_cache_populate_key env ctx strip tf type)).map
        (fun p => (p.1, p.2.ibuf)) = some (c.next_id, i) ∧
      (∀ x, w2.refs x = bumpRef w.refs i x) := by
  have hg := seq_cache_get_miss_nodisk env w c ctx strip tf type hc hskip hproxy hpref
    hdisk hfind
  have hkey : (seq_cache_populate_key env ctx strip tf type).context = ctx.fp := rfl
  have hbase := put_ex_findEntry env c w.refs (seq_cache_populate_key env ctx strip tf type)
    i hfind (by rw [hkey]; exact hnan)
  by_cases hfr : ctx.for_render = true
  · refine ⟨⟨some { (seq_cache_put_ex env c w.refs
        (seq_cache_populate_key env ctx strip tf type) i).1 with
        entries := (setEntry (seq_cache_put_ex env c w.refs
          (seq_cache_populate_key env ctx strip tf type) i).1.entries c.next_id
          fun x => { x with is_temp_cache := true }) },
      (seq_cache_put_ex env c w.refs
        (seq_cache_populate_key env ctx strip tf type) i).2.1⟩,
      { (seq_cache_put_ex env c w.refs
        (seq_cache_populate_key env ctx strip tf type) i).1 with
        entries := (setEntry (seq_cache_put_ex env c w.refs
          (seq_cache_populate_key env ctx strip tf type) i).1.entries c.next_id
          fun x => { x with is_temp_cache := true }) }, ?_, rfl, ?_, ?_, ?_⟩
    · simp [seq_cache_put, hskip, hproxy, hpref, hg, hfr, put_ex_id]
    · simp [put_ex_next_id]
    · dsimp only
      rw [findEntry_map_setEntry _ _ _ (fun x => { x with is_temp_cache := true })
        (fun e => by simp [seq_cache_key_differs]) (fun e => rfl)]
      exact hbase
    · intro x
      simp [put_ex_refs]
  · refine ⟨⟨some (seq_cache_put_ex env c w.refs
        (seq_cache_populate_key env ctx strip tf type) i).1,
      (seq_cache_put_ex env c w.refs
        (seq_cache_populate_key env ctx strip tf type) i).2.1⟩,
      (seq_cache_put_ex env c w.refs
        (seq_cache_populate_key env ctx strip tf type) i).1, ?_, rfl, ?_, ?_, ?_⟩
    · simp [seq_cache_put, hskip, hproxy, hpref, hg, hfr]
    · simp [put_ex_next_id]
    · exact hbase
    · intro x
      simp [put_ex_refs]

/-! ### Claim C3 -/

/-- Claim C3: a second `seq_cache_put` under a key equal to one already
cached is a no-op: the call returns normally with the cache object unchanged
(so at most one artifact is ever stored under the key and nothing is
inserted), every reference count is unchanged (the duplicate-check fetch's
reference is released again), and the first artifact remains retrievable
under the key. -/
theorem C3_duplicate_store_noop (env : Env) (w : World) (c : SeqCache)
    (ctx : RenderData) (strip : Nat) (tf : Int) (type : Nat) (i pid pib : Nat)
    (hc : w.cache = some c)
    (hskip : ctx.skip_cache = false) (hproxy : ctx.is_proxy_render = false)
    (hpref : ctx.is_prefetch_render = false)
    (hfind : (findEntry c.entries (seq_cache_populate_key env ctx strip tf type)).map
      (fun p => (p.1, p.2.ibuf)) = some (pid, pib)) :
    ∃ w2, seq_cache_put env w ctx strip tf type i = some w2 ∧
      w2.cache = w.cache ∧
      (∀ x, w2.refs x = w.refs x) ∧
      ∃ res, seq_cache_get env w2 ctx strip tf type = some res ∧ res.2 = some pib := by
  obtain ⟨w2, hput, h1, h2⟩ := seq_cache_put_duplicate env w c ctx strip tf type i pid pib
    hc hskip hproxy hpref hfind
  refine ⟨w2, hput, h1, h2, ?_⟩
  have hc2 : w2.cache = some c := by rw [h1, hc]
  have hres := seq_cache_get_hit env w2 c ctx strip tf type pid pib hc2 hskip hproxy
    hpref hfind
  exact ⟨_, hres, rfl⟩

def cacheC3 : SeqCache :=
  { entries := [(0, mkEntry 2 0 SEQ_CACHE_STORE_RAW false none none 77)]
    last_key := some 0, next_id := 1, disk_cache := false }

/-- Witness for C3: the raw frame at strip 2 is already cached under buffer
77; storing buffer 99 under the equal key changes nothing and 77 stays
retrievable. -/
theorem C3_witness :
    ∃ w2, seq_cache_put envBase { cache := some cacheC3, refs := refs0 } ctx0 2 5
        SEQ_CACHE_STORE_RAW 99 = some w2 ∧
      w2.cache = ({ cache := some cacheC3, refs := refs0 } : World).cache ∧
      (∀ x, w2.refs x = ({ cache := some cacheC3, refs := refs0 } : World).refs x) ∧
      ∃ res, seq_cache_get envBase w2 ctx0 2 5 SEQ_CACHE_STORE_RAW = some res ∧
        res.2 = some 77 :=
  C3_duplicate_store_noop envBase _ cacheC3 ctx0 2 5 SEQ_CACHE_STORE_RAW 99 0 77
    rfl rfl rfl rfl (by decide)

/-! ### Claim C5 -/

def env5 : Env :=
  { envBase with
    sceneCacheFlag := SEQ_CACHE_STORE_RAW ||| SEQ_CACHE_STORE_FINAL_OUT,
    giveFrameIndex := fun _ t => t }

def ctxFR : RenderData := { ctx0 with for_render := true }

def C5w1 : Option World :=
  seq_cache_put env5 { cache := none, refs := refs0 } ctx0 0 1 SEQ_CACHE_STORE_RAW 10

def C5w2 : Option World :=
  C5w1.bind fun w1 => seq_cache_put env5 w1 ctxFR 0 2 SEQ_CACHE_STORE_RAW 11

/-- C5 failing run: after a retained raw store (identity 0), a second store
with `for_render` set inserts identity 1 through `seq_cache_put_ex` (which
links it: `link_prev = some 0` and slot 0's `link_next = some 1`) and only
afterwards sets `is_temp_cache = true` on it.  The final state therefore
contains a temp entry that is linked — `link_prev` set and pointed at by a
non-temp entry — contradicting the claimed invariant (and the source file's
own design note "Only permanent (is_temp_cache = 0) cache entries are
linked"). -/
theorem C5_for_render_linked_temp :
    ((C5w2.bind fun w => w.cache).map fun c =>
      ((lookupId c.entries 1).map fun e => (e.is_temp_cache, e.link_prev),
       (lookupId c.entries 0).map fun e => (e.is_temp_cache, e.link_next))) =
    some (some (true, some 0), some (false, some 1)) := by
  decide

/-! ### Claim C7 -/

def env7 : Env := { envBase with stripIsEffect := fun _ => true, stripStart := fun _ => 10 }

/-- Counterexample to C7 as stated: for an EFFECT strip the raw-stage key
frame index is the timeline offset from the strip start (here `15 - 10 = 5`),
not the media-relative mapping (`0`): the source applies the media mapping
only to non-effect strips. -/
theorem C7_counterexample :
    env7.stripIsEffect 1 = true ∧
    seq_cache_timeline_frame_to_frame_index env7 1 15 SEQ_CACHE_STORE_RAW = 5 ∧
    env7.giveFrameIndex 1 15 = 0 ∧ (5 : Int) ≠ 0 := by
  decide

/-- Claim C7 (amended): for every NON-EFFECT strip with stage Raw the key's
frame index is the media-relative mapping, and for every other stage (or any
effect strip) it is the timeline frame minus the strip's start frame;
consequently two stores for the same non-effect strip at stage Raw whose
timeline frames map to the same media-relative index produce equal keys, and
the second store is a no-op. -/
theorem C7_raw_media_mapping_dedup (env : Env) (w : World) (c : SeqCache)
    (ctx : RenderData) (strip : Nat) (t1 t2 : Int) (i1 i2 : Nat)
    (heff : env.stripIsEffect strip = false)
    (hcoll : env.giveFrameIndex strip t1 = env.giveFrameIndex strip t2)
    (hc : w.cache = some c)
    (hskip : ctx.skip_cache = false) (hproxy : ctx.is_proxy_render = false)
    (hpref : ctx.is_prefetch_render = false) (hdisk : env.diskEnabled = false)
    (hfind : findEntry c.entries
      (seq_cache_populate_key env ctx strip t1 SEQ_CACHE_STORE_RAW) = none)
    (hnan : f32IsNaN ctx.fp.motion_blur_shutter = false) :
    (∀ s tf, env.stripIsEffect s = false →
      seq_cache_timeline_frame_to_frame_index env s tf SEQ_CACHE_STORE_RAW =
        env.giveFrameIndex s tf) ∧
    (∀ s tf ty, env.stripIsEffect s = true ∨ ty ≠ SEQ_CACHE_STORE_RAW →
      seq_cache_timeline_frame_to_frame_index env s tf ty = tf - env.stripStart s) ∧
    seq_cache_populate_key env ctx strip t1 SEQ_CACHE_STORE_RAW =
      seq_cache_populate_key env ctx strip t2 SEQ_CACHE_STORE_RAW ∧
    ∃ w1, seq_cache_put env w ctx strip t1 SEQ_CACHE_STORE_RAW i1 = some w1 ∧
      ∃ w2, seq_cache_put env w1 ctx strip t2 SEQ_CACHE_STORE_RAW i2 = some w2 ∧
        w2.cache = w1.cache ∧ (∀ x, w2.refs x = w1.refs x) := by
  have hkeys : seq_cache_populate_key env ctx strip t1 SEQ_CACHE_STORE_RAW =
      seq_cache_populate_key env ctx strip t2 SEQ_CACHE_STORE_RAW := by
    simp [seq_cache_populate_key, seq_cache_timeline_frame_to_frame_index, heff, hcoll]
  obtain ⟨w1, c2, hput1, hc2, _, hfind2, _⟩ := seq_cache_put_miss_inserts env w c ctx strip
    t1 SEQ_CACHE_STORE_RAW i1 hc hskip hproxy hpref hdisk hfind hnan
  have hfind2b : (findEntry c2.entries
      (seq_cache_populate_key env ctx strip t2 SEQ_CACHE_STORE_RAW)).map
      (fun p => (p.1, p.2.ibuf)) = some (c.next_id, i1) := by
    rw [← hkeys]
    exact hfind2
  obtain ⟨w2, hput2, hns, hnr⟩ := seq_cache_put_duplicate env w1 c2 ctx strip t2
    SEQ_CACHE_STORE_RAW i2 c.next_id i1 hc2 hskip hproxy hpref hfind2b
  refine ⟨?_, ?_, hkeys, w1, hput1, w2, hput2, hns, hnr⟩
  · intro s tf h
    simp [seq_cache_timeline_frame_to_frame_index, h]
  · intro s tf ty h
    rcases h with h | h
    · simp [seq_cache_timeline_frame_to_frame_index, h]
    · simp [seq_cache_timeline_frame_to_frame_index, h]

/-- Witness for C7: a static-image-like strip (constant media mapping) at
timeline frames 5 and 9 — the two stores collide and the second is a
no-op. -/
theorem C7_witness :
    (∀ s tf, envBase.stripIsEffect s = false →
      seq_cache_timeline_frame_to_frame_index envBase s tf SEQ_CACHE_STORE_RAW =
        envBase.giveFrameIndex s tf) ∧
    (∀ s tf ty, envBase.stripIsEffect s = true ∨ ty ≠ SEQ_CACHE_STORE_RAW →
      seq_cache_timeline_frame_to_frame_index envBase s tf ty =
        tf - envBase.stripStart s) ∧
    seq_cache_populate_key envBase ctx0 4 5 SEQ_CACHE_STORE_RAW =
      seq_cache_populate_key envBase ctx0 4 9 SEQ_CACHE_STORE_RAW ∧
    ∃ w1, seq_cache_put envBase { cache := some seq_cache_create, refs := refs0 } ctx0 4 5
        SEQ_CACHE_STORE_RAW 21 = some w1 ∧
      ∃ w2, seq_cache_put envBase w1 ctx0 4 9 SEQ_CACHE_STORE_RAW 22 = some w2 ∧
        w2.cache = w1.cache ∧ (∀ x, w2.refs x = w1.refs x) :=
  C7_raw_media_mapping_dedup envBase _ seq_cache_create ctx0 4 5 9 21 22
    rfl rfl rfl rfl rfl rfl rfl (by decide) (by decide)

/-! ### `seq_cache_recycle_linked` toolbox -/

/-- One backward step: the current key is present and its predecessor's
`link_next` still points back, so the key is unlinked and removed and the
walk moves to the predecessor. -/
theorem rwp_removes (fuel : Nat) (c : SeqCache) (refs : Refs) (b : Nat)
    (eb : SeqCacheEntry) (a : Nat) (ea : SeqCacheEntry)
    (hlb : lookupId c.entries b = some eb) (hprev : eb.link_prev = some a)
    (hla : lookupId c.entries a = some ea) (hcons : ea.link_next = some b) :
    recycle_walk_prev (fuel + 1) c refs (some b) =
      recycle_walk_prev fuel (seq_cache_remove (seq_cache_key_unlink c b) refs b).1
        (seq_cache_remove (seq_cache_key_unlink c b) refs b).2 (some a) := by
  simp only [recycle_walk_prev, hlb, hprev, hla]
  rw [if_neg (by simp [hcons])]

/-- Backward step at the head of the chain (`link_prev` null): the key is
unlinked and removed and the walk ends. -/
theorem rwp_removes_last (fuel : Nat) (c : SeqCache) (refs : Refs) (b : Nat)
    (eb : SeqCacheEntry) (hlb : lookupId c.entries b = some eb)
    (hprev : eb.link_prev = none) :
    recycle_walk_prev (fuel + 1) c refs (some b) =
      seq_cache_remove (seq_cache_key_unlink c b) refs b := by
  simp only [recycle_walk_prev, hlb, hprev]
  rw [recycle_walk_prev_none]

/-- Forward step at the tail (`link_next` null): the key is unlinked and
removed and the walk ends. -/
theorem rwn_removes_last (fuel : Nat) (c : SeqCache) (refs : Refs) (b : Nat)
    (eb : SeqCacheEntry) (hlb : lookupId c.entries b = some eb)
    (hnext : eb.link_next = none) :
    recycle_walk_next (fuel + 1) c refs (some b) =
      seq_cache_remove (seq_cache_key_unlink c b) refs b := by
  simp only [recycle_walk_next, hlb, hnext]
  rw [recycle_walk_next_none]

theorem two_present_length (l : List (Nat × SeqCacheEntry)) (a b : Nat)
    (ea eb : SeqCacheEntry) (hab : a ≠ b)
    (ha : lookupId l a = some ea) (hb : lookupId l b = some eb) : 2 ≤ l.length := by
  induction l with
  | nil => simp [lookupId] at ha
  | cons p ps ih =>
    by_cases hpa : p.1 = a
    · have hpb : ¬p.1 = b := by omega
      simp only [lookupId, if_neg hpb] at hb
      have := lookupId_length_pos ps b eb hb
      simp
      omega
    · simp only [lookupId, if_neg hpa] at ha
      by_cases hpb : p.1 = b
      · have := lookupId_length_pos ps a ea ha
        simp
        omega
      · simp only [lookupId, if_neg hpb] at hb
        have := ih ha hb
        simp
        omega

theorem mem_removeId_cases (l : List (Nat × SeqCacheEntry)) (i : Nat)
    (p : Nat × SeqCacheEntry) (h : p ∈ removeId l i) : p ∈ l ∧ p.1 ≠ i := by
  induction l with
  | nil => simp [removeId] at h
  | cons q qs ih =>
    by_cases hq : q.1 = i
    · simp only [removeId, if_pos hq] at h
      have := ih h
      exact ⟨List.mem_cons_of_mem _ this.1, this.2⟩
    · simp only [removeId, if_neg hq] at h
      rcases List.mem_cons.mp h with he | hm
      · refine ⟨by simp [he], ?_⟩
        rw [he]
        exact hq
      · have := ih hm
        exact ⟨List.mem_cons_of_mem _ this.1, this.2⟩

theorem mem_setEntry_cases (l : List (Nat × SeqCacheEntry)) (i : Nat)
    (f : SeqCacheEntry → SeqCacheEntry) (p : Nat × SeqCacheEntry)
    (h : p ∈ setEntry l i f) :
    (p ∈ l ∧ p.1 ≠ i) ∨ ∃ q, q ∈ l ∧ q.1 = i ∧ p = (i, f q.2) := by
  induction l with
  | nil => simp [setEntry] at h
  | cons q qs ih =>
    by_cases hq : q.1 = i
    · simp only [setEntry, if_pos hq] at h
      rcases List.mem_cons.mp h with he | hm
      · right
        exact ⟨q, by simp, hq, by rw [he, hq]⟩
      · rcases ih hm with ⟨h1, h2⟩ | ⟨r, hr1, hr2, hr3⟩
        · exact Or.inl ⟨List.mem_cons_of_mem _ h1, h2⟩
        · exact Or.inr ⟨r, List.mem_cons_of_mem _ hr1, hr2, hr3⟩
    · simp only [setEntry, if_neg hq] at h
      rcases List.mem_cons.mp h with he | hm
      · left
        refine ⟨by simp [he], ?_⟩
        rw [he]
        exact hq
      · rcases ih hm with ⟨h1, h2⟩ | ⟨r, hr1, hr2, hr3⟩
        · exact Or.inl ⟨List.mem_cons_of_mem _ h1, h2⟩
        · exact Or.inr ⟨r, List.mem_cons_of_mem _ hr1, hr2, hr3⟩

/-- The key content of a stored entry, as probed by `seq_cache_get`. -/
def entryKey (e : SeqCacheEntry) : SeqCacheKeyData :=
  { strip := e.strip, frame_index := e.frame_index, type := e.type, context := e.context
    task_id := e.task_id }

/-- Full computation of `seq_cache_recycle_linked` on a three-element chain
`a ↔ b ↔ k` with `b` chosen: `b` is unlinked and removed, the walk moves back
to `a`, removes it, then forward from the remembered `k`, removing it; the
final table is the original minus the chain (with the transient link splices
applied only to slots that are themselves removed), and the three buffers
each drop the cache's reference. -/
theorem recycle_linked_three (c : SeqCache) (refs : Refs) (a b k : Nat)
    (ea eb ek : SeqCacheEntry)
    (hab : a ≠ b) (hbk : b ≠ k) (hak : a ≠ k)
    (hla : lookupId c.entries a = some ea)
    (hlb : lookupId c.entries b = some eb)
    (hlk : lookupId c.entries k = some ek)
    (hea1 : ea.link_prev = none) (hea2 : ea.link_next = some b)
    (heb1 : eb.link_prev = some a) (heb2 : eb.link_next = some k)
    ( _hek1 : ek.link_prev = some b) (hek2 : ek.link_next = none) :
    seq_cache_recycle_linked c refs b =
      ({ c with entries :=
          (removeId (removeId (setEntry (removeId (setEntry (setEntry c.entries k (fun ne =>
            { ne with link_prev := some a })) a (fun pe => { pe with link_next := some k }))
            b) k (fun ne => { ne with link_prev := none })) a) k) },
       dropRef (dropRef (dropRef refs eb.ibuf) ea.ibuf) ek.ibuf) := by
  obtain ⟨m, hm⟩ : ∃ m, c.entries.length = m + 2 :=
    ⟨c.entries.length - 2, by
      have := two_present_length c.entries a b ea eb hab hla hlb
      omega⟩
  have hu1 : seq_cache_key_unlink c b =
      { c with entries :=
        (setEntry (setEntry c.entries k (fun ne => { ne with link_prev := some a })) a
          (fun pe => { pe with link_next := some k })) } := by
    simp only [seq_cache_key_unlink, hlb, heb2, heb1]
  have hb2 : lookupId
      (setEntry (setEntry c.entries k (fun ne => { ne with link_prev := some a })) a
        (fun pe => { pe with link_next := some k })) b = some eb := by
    rw [lookupId_setEntry, if_neg (Ne.symm hab), lookupId_setEntry, if_neg hbk]
    exact hlb
  have hrem1 : seq_cache_remove (seq_cache_key_unlink c b) refs b =
      ({ c with entries :=
        (removeId (setEntry (setEntry c.entries k (fun ne => { ne with link_prev := some a }))
          a (fun pe => { pe with link_next := some k })) b) },
       dropRef refs eb.ibuf) := by
    rw [hu1]
    simp only [seq_cache_remove]
    rw [hb2]
  have hla2 : lookupId
      (removeId (setEntry (setEntry c.entries k (fun ne => { ne with link_prev := some a }))
        a (fun pe => { pe with link_next := some k })) b) a =
      some { ea with link_next := some k } := by
    rw [lookupId_removeId, if_neg hab, lookupId_setEntry, if_pos rfl, lookupId_setEntry,
      if_neg hak, hla]
    rfl
  have h2 := rwp_removes_last (m + 1)
    { c with entries :=
      (removeId (setEntry (setEntry c.entries k (fun ne => { ne with link_prev := some a }))
        a (fun pe => { pe with link_next := some k })) b) }
    (dropRef refs eb.ibuf) a { ea with link_next := some k } hla2 (by simp [hea1])
  have hu2 : seq_cache_key_unlink
      { c with entries :=
        (removeId (setEntry (setEntry c.entries k (fun ne => { ne with link_prev := some a }))
          a (fun pe => { pe with link_next := some k })) b) } a =
      { c with entries :=
        (setEntry (removeId (setEntry (setEntry c.entries k (fun ne =>
          { ne with link_prev := some a })) a (fun pe => { pe with link_next := some k })) b)
          k (fun ne => { ne with link_prev := none })) } := by
    simp only [seq_cache_key_unlink]
    rw [hla2]
    simp [hea1]
  have hla3 : lookupId
      (setEntry (removeId (setEntry (setEntry c.entries k (fun ne =>
        { ne with link_prev := some a })) a (fun pe => { pe with link_next := some k })) b)
        k (fun ne => { ne with link_prev := none })) a =
      some { ea with link_next := some k } := by
    rw [lookupId_setEntry, if_neg hak]
    exact hla2
  have hrem2 : seq_cache_remove
      { c with entries :=
        (setEntry (removeId (setEntry (setEntry c.entries k (fun ne =>
          { ne with link_prev := some a })) a (fun pe => { pe with link_next := some k })) b)
          k (fun ne => { ne with link_prev := none })) } (dropRef refs eb.ibuf) a =
      ({ c with entries :=
        (removeId (setEntry (removeId (setEntry (setEntry c.entries k (fun ne =>
          { ne with link_prev := some a })) a (fun pe => { pe with link_next := some k })) b)
          k (fun ne => { ne with link_prev := none })) a) },
       dropRef (dropRef refs eb.ibuf) ea.ibuf) := by
    simp only [seq_cache_remove]
    rw [hla3]
  have hlk4 : lookupId
      (removeId (setEntry (removeId (setEntry (setEntry c.entries k (fun ne =>
        { ne with link_prev := some a })) a (fun pe => { pe with link_next := some k })) b)
        k (fun ne => { ne with link_prev := none })) a) k =
      some { ek with link_prev := none } := by
    rw [lookupId_removeId, if_neg (Ne.symm hak), lookupId_setEntry, if_pos rfl,
      lookupId_removeId, if_neg (Ne.symm hbk), lookupId_setEntry, if_neg (Ne.symm hak),
      lookupId_setEntry, if_pos rfl, hlk]
    rfl
  have h3 := rwn_removes_last
    ((removeId (setEntry (removeId (setEntry (setEntry c.entries k (fun ne =>
      { ne with link_prev := some a })) a (fun pe => { pe with link_next := some k })) b)
      k (fun ne => { ne with link_prev := none })) a).length)
    { c with entries :=
      (removeId (setEntry (removeId (setEntry (setEntry c.entries k (fun ne =>
        { ne with link_prev := some a })) a (fun pe => { pe with link_next := some k })) b)
        k (fun ne => { ne with link_prev := none })) a) }
    (dropRef (dropRef refs eb.ibuf) ea.ibuf) k { ek with link_prev := none } hlk4
    (by simp [hek2])
  have hu3 : seq_cache_key_unlink
      { c with entries :=
        (removeId (setEntry (removeId (setEntry (setEntry c.entries k (fun ne =>
          { ne with link_prev := some a })) a (fun pe => { pe with link_next := some k })) b)
          k (fun ne => { ne with link_prev := none })) a) } k =
      { c with entries :=
        (removeId (setEntry (removeId (setEntry (setEntry c.entries k (fun ne =>
          { ne with link_prev := some a })) a (fun pe => { pe with link_next := some k })) b)
          k (fun ne => { ne with link_prev := none })) a) } := by
    simp only [seq_cache_key_unlink]
    rw [hlk4]
    simp [hek2]
  have hrem3 : seq_cache_remove
      { c with entries :=
        (removeId (setEntry (removeId (setEntry (setEntry c.entries k (fun ne =>
          { ne with link_prev := some a })) a (fun pe => { pe with link_next := some k })) b)
          k (fun ne => { ne with link_prev := none })) a) }
      (dropRef (dropRef refs eb.ibuf) ea.ibuf) k =
      ({ c with entries :=
        (removeId (removeId (setEntry (removeId (setEntry (setEntry c.entries k (fun ne =>
          { ne with link_prev := some a })) a (fun pe => { pe with link_next := some k })) b)
          k (fun ne => { ne with link_prev := none })) a) k) },
       dropRef (dropRef (dropRef refs eb.ibuf) ea.ibuf) ek.ibuf) := by
    simp only [seq_cache_remove]
    rw [hlk4]
  simp only [seq_cache_recycle_linked, hlb, Option.some_bind, heb2]
  rw [hm]
  have h1 := rwp_removes (m + 2) c refs b eb a ea hlb heb1 hla hea2
  rw [h1, hrem1]
  dsimp only
  rw [show m + 2 = m + 1 + 1 from rfl, h2, hu2, hrem2]
  dsimp only
  rw [h3, hu3, hrem3]

/-! ### Claim C2 -/

/-- Claim C2: with entries `a → b → k` forming one chain (inserted
consecutively, correctly linked) and `b` chosen as the removal target,
`seq_cache_recycle_linked` removes the whole chain: none of the three
identities remains, a get on any of their keys misses, every other slot is
untouched, and no surviving entry has a chain link to any of the three. -/
theorem C2_recycle_chain_atomic (c : SeqCache) (refs : Refs) (a b k : Nat)
    (ea eb ek : SeqCacheEntry)
    (hab : a ≠ b) (hbk : b ≠ k) (hak : a ≠ k)
    (hla : lookupId c.entries a = some ea)
    (hlb : lookupId c.entries b = some eb)
    (hlk : lookupId c.entries k = some ek)
    (hea1 : ea.link_prev = none) (hea2 : ea.link_next = some b)
    (heb1 : eb.link_prev = some a) (heb2 : eb.link_next = some k)
    (hek1 : ek.link_prev = some b) (hek2 : ek.link_next = none)
    (hothers : ∀ p ∈ c.entries, p.1 ≠ a → p.1 ≠ b → p.1 ≠ k →
      (p.2.link_prev ≠ some a ∧ p.2.link_prev ≠ some b ∧ p.2.link_prev ≠ some k ∧
       p.2.link_next ≠ some a ∧ p.2.link_next ≠ some b ∧ p.2.link_next ≠ some k))
    (hkeys : ∀ p ∈ c.entries, p.1 ≠ a → p.1 ≠ b → p.1 ≠ k →
      (seq_cache_key_differs p.2 (entryKey ea) = true ∧
       seq_cache_key_differs p.2 (entryKey eb) = true ∧
       seq_cache_key_differs p.2 (entryKey ek) = true)) :
    lookupId (seq_cache_recycle_linked c refs b).1.entries a = none ∧
    lookupId (seq_cache_recycle_linked c refs b).1.entries b = none ∧
    lookupId (seq_cache_recycle_linked c refs b).1.entries k = none ∧
    (∀ j, j ≠ a → j ≠ b → j ≠ k →
      lookupId (seq_cache_recycle_linked c refs b).1.entries j = lookupId c.entries j) ∧
    findEntry (seq_cache_recycle_linked c refs b).1.entries (entryKey ea) = none ∧
    findEntry (seq_cache_recycle_linked c refs b).1.entries (entryKey eb) = none ∧
    findEntry (seq_cache_recycle_linked c refs b).1.entries (entryKey ek) = none ∧
    (∀ p ∈ (seq_cache_recycle_linked c refs b).1.entries,
      p.2.link_prev ≠ some a ∧ p.2.link_prev ≠ some b ∧ p.2.link_prev ≠ some k ∧
      p.2.link_next ≠ some a ∧ p.2.link_next ≠ some b ∧ p.2.link_next ≠ some k) := by
  have hthree := recycle_linked_three c refs a b k ea eb ek hab hbk hak hla hlb hlk
    hea1 hea2 heb1 heb2 hek1 hek2
  simp only [hthree]
  have hmem : ∀ p : Nat × SeqCacheEntry,
      p ∈ (removeId (removeId (setEntry (removeId (setEntry (setEntry c.entries k
        (fun ne => { ne with link_prev := some a })) a (fun pe =>
        { pe with link_next := some k })) b) k (fun ne => { ne with link_prev := none })) a) k) →
      p ∈ c.entries ∧ p.1 ≠ a ∧ p.1 ≠ b ∧ p.1 ≠ k := by
    intro p hp
    obtain ⟨hp1, hpk⟩ := mem_removeId_cases _ _ _ hp
    obtain ⟨hp2, hpa⟩ := mem_removeId_cases _ _ _ hp1
    rcases mem_setEntry_cases _ _ _ _ hp2 with ⟨hp3, _⟩ | ⟨q, _, _, hpe⟩
    · obtain ⟨hp4, hpb⟩ := mem_removeId_cases _ _ _ hp3
      rcases mem_setEntry_cases _ _ _ _ hp4 with ⟨hp5, _⟩ | ⟨q, _, _, hpe⟩
      · rcases mem_setEntry_cases _ _ _ _ hp5 with ⟨hp6, _⟩ | ⟨q, _, _, hpe⟩
        · exact ⟨hp6, hpa, hpb, hpk⟩
        · rw [hpe] at hpk
          simp at hpk
      · rw [hpe] at hpa
        simp at hpa
    · rw [hpe] at hpk
      simp at hpk
  refine ⟨?_, ?_, ?_, ?_, ?_, ?_, ?_, ?_⟩
  · rw [lookupId_removeId, if_neg hak, lookupId_removeId, if_pos rfl]
  · rw [lookupId_removeId, if_neg hbk, lookupId_removeId, if_neg (Ne.symm hab),
      lookupId_setEntry, if_neg hbk, lookupId_removeId, if_pos rfl]
  · rw [lookupId_removeId, if_pos rfl]
  · intro j hja hjb hjk
    rw [lookupId_removeId, if_neg hjk, lookupId_removeId, if_neg hja,
      lookupId_setEntry, if_neg hjk, lookupId_removeId, if_neg hjb,
      lookupId_setEntry, if_neg hja, lookupId_setEntry, if_neg hjk]
  · exact findEntry_eq_none _ _ fun p hp =>
      (hkeys p (hmem p hp).1 (hmem p hp).2.1 (hmem p hp).2.2.1 (hmem p hp).2.2.2).1
  · exact findEntry_eq_none _ _ fun p hp =>
      (hkeys p (hmem p hp).1 (hmem p hp).2.1 (hmem p hp).2.2.1 (hmem p hp).2.2.2).2.1
  · exact findEntry_eq_none _ _ fun p hp =>
      (hkeys p (hmem p hp).1 (hmem p hp).2.1 (hmem p hp).2.2.1 (hmem p hp).2.2.2).2.2
  · intro p hp
    exact hothers p (hmem p hp).1 (hmem p hp).2.1 (hmem p hp).2.2.1 (hmem p hp).2.2.2

def cacheC2 : SeqCache :=
  { entries := [(5, mkEntry 0 1 SEQ_CACHE_STORE_RAW false none (some 6) 30),
                (6, mkEntry 0 2 SEQ_CACHE_STORE_RAW false (some 5) (some 7) 31),
                (7, mkEntry 0 3 SEQ_CACHE_STORE_RAW false (some 6) none 32),
                (9, mkEntry 9 99 SEQ_CACHE_STORE_RAW false none none 33)]
    last_key := none, next_id := 10, disk_cache := false }

/-- Witness for C2 on a concrete chain 5 → 6 → 7 plus an unrelated slot 9. -/
theorem C2_witness :
    lookupId (seq_cache_recycle_linked cacheC2 refs0 6).1.entries 5 = none ∧
    lookupId (seq_cache_recycle_linked cacheC2 refs0 6).1.entries 6 = none ∧
    lookupId (seq_cache_recycle_linked cacheC2 refs0 6).1.entries 7 = none ∧
    (∀ j, j ≠ 5 → j ≠ 6 → j ≠ 7 →
      lookupId (seq_cache_recycle_linked cacheC2 refs0 6).1.entries j =
        lookupId cacheC2.entries j) ∧
    findEntry (seq_cache_recycle_linked cacheC2 refs0 6).1.entries
      (entryKey (mkEntry 0 1 SEQ_CACHE_STORE_RAW false none (some 6) 30)) = none ∧
    findEntry (seq_cache_recycle_linked cacheC2 refs0 6).1.entries
      (entryKey (mkEntry 0 2 SEQ_CACHE_STORE_RAW false (some 5) (some 7) 31)) = none ∧
    findEntry (seq_cache_recycle_linked cacheC2 refs0 6).1.entries
      (entryKey (mkEntry 0 3 SEQ_CACHE_STORE_RAW false (some 6) none 32)) = none ∧
    (∀ p ∈ (seq_cache_recycle_linked cacheC2 refs0 6).1.entries,
      p.2.link_prev ≠ some 5 ∧ p.2.link_prev ≠ some 6 ∧ p.2.link_prev ≠ some 7 ∧
      p.2.link_next ≠ some 5 ∧ p.2.link_next ≠ some 6 ∧ p.2.link_next ≠ some 7) :=
  C2_recycle_chain_atomic cacheC2 refs0 5 6 7
    (mkEntry 0 1 SEQ_CACHE_STORE_RAW false none (some 6) 30)
    (mkEntry 0 2 SEQ_CACHE_STORE_RAW false (some 5) (some 7) 31)
    (mkEntry 0 3 SEQ_CACHE_STORE_RAW false (some 6) none 32)
    (by decide) (by decide) (by decide) (by decide) (by decide) (by decide)
    (by decide) (by decide) (by decide) (by decide) (by decide) (by decide)
    (by decide) (by decide)

/-! ### Claim C6 -/

theorem setEntry_lookup_isSome (l : List (Nat × SeqCacheEntry)) (i : Nat)
    (f : SeqCacheEntry → SeqCacheEntry) (j : Nat) :
    (lookupId (setEntry l i f) j).isSome = (lookupId l j).isSome := by
  rw [lookupId_setEntry]
  by_cases h : j = i <;> simp [h]

theorem unlink_lookup_isSome (c : SeqCache) (i j : Nat) :
    (lookupId (seq_cache_key_unlink c i).entries j).isSome =
      (lookupId c.entries j).isSome := by
  cases hl : lookupId c.entries i with
  | none => simp [seq_cache_key_unlink, hl]
  | some e =>
    simp only [seq_cache_key_unlink, hl]
    cases hn : e.link_next <;> cases hp : e.link_prev <;>
      simp [setEntry_lookup_isSome]

theorem remove_unlink_lookup_isSome (c : SeqCache) (refs : Refs) (i j : Nat) :
    (lookupId (seq_cache_remove (seq_cache_key_unlink c i) refs i).1.entries j).isSome =
      if j = i then false else (lookupId c.entries j).isSome := by
  cases hl : lookupId (seq_cache_key_unlink c i).entries i with
  | none =>
    have hl0 : (lookupId c.entries i).isSome = false := by
      rw [← unlink_lookup_isSome c i i, hl]
      rfl
    simp only [seq_cache_remove, hl]
    by_cases hj : j = i
    · subst hj
      rw [unlink_lookup_isSome]
      simp [hl0]
    · rw [unlink_lookup_isSome, if_neg hj]
  | some e =>
    simp only [seq_cache_remove, hl]
    by_cases hj : j = i
    · subst hj
      simp [lookupId_removeId]
    · rw [lookupId_removeId, if_neg hj, unlink_lookup_isSome, if_neg hj]

theorem cleanup_pass_isSome (env : Env) (strip : Nat) (rs re rsc2 rec2 : Int)
    (ic isrc : Nat) :
    ∀ (l : List (Nat × SeqCacheEntry)) (st : SeqCache × Refs) (j : Nat),
      (lookupId (cleanup_pass env strip rs re rsc2 rec2 ic isrc l st).1.entries j).isSome =
        ((lookupId st.1.entries j).isSome &&
          !(l.any fun p => decide (p.1 = j) &&
            cleanup_should_remove env strip rs re rsc2 rec2 ic isrc p.2)) := by
  intro l
  induction l with
  | nil =>
    intro st j
    simp [cleanup_pass]
  | cons p ps ih =>
    intro st j
    cases hcond : cleanup_should_remove env strip rs re rsc2 rec2 ic isrc p.2 with
    | true =>
      simp only [cleanup_pass, hcond, if_pos trivial]
      rw [ih]
      rw [remove_unlink_lookup_isSome]
      by_cases hj : j = p.1
      · subst hj
        simp [hcond]
      · have : ¬p.1 = j := fun h => hj h.symm
        simp [hcond, this, hj]
    | false =>
      simp only [cleanup_pass, hcond]
      rw [if_neg (by simp)]
      rw [ih]
      simp [hcond]

theorem any_cond_of_nodup (l : List (Nat × SeqCacheEntry)) (j : Nat) (e : SeqCacheEntry)
    (cond : SeqCacheEntry → Bool) (hnod : (l.map Prod.fst).Nodup)
    (hl : lookupId l j = some e) :
    (l.any fun p => decide (p.1 = j) && cond p.2) = cond e := by
  induction l with
  | nil => simp [lookupId] at hl
  | cons p ps ih =>
    obtain ⟨hnotin, hnod2⟩ := List.nodup_cons.mp hnod
    by_cases hp : p.1 = j
    · simp only [lookupId, if_pos hp] at hl
      cases hl
      have hps : (ps.any fun q => decide (q.1 = j) && cond q.2) = false := by
        rw [List.any_eq_false]
        intro q hq
        have hqmem : q.1 ∈ ps.map Prod.fst := List.mem_map_of_mem _ hq
        have : q.1 ≠ j := by
          intro hqj
          rw [hqj, ← hp] at hqmem
          exact hnotin hqmem
        simp [this]
      simp [hp, hps]
    · simp only [lookupId, if_neg hp] at hl
      simp [hp, ih hnod2 hl]

theorem cleanup_should_remove_iff (env : Env) (strip : Nat)
    (rs re rsc2 rec2 : Int) (ic isrc : Nat) (e : SeqCacheEntry) :
    cleanup_should_remove env strip rs re rsc2 rec2 ic isrc e = true ↔
      ((e.type &&& ic ≠ 0 ∧ rs ≤ seq_cache_key_timeline_frame_get env e ∧
          seq_cache_key_timeline_frame_get env e ≤ re) ∨
        (e.type &&& isrc ≠ 0 ∧ e.strip = strip ∧
          rsc2 ≤ seq_cache_key_timeline_frame_get env e ∧
          seq_cache_key_timeline_frame_get env e ≤ rec2)) := by
  simp only [cleanup_should_remove]
  by_cases h1 : e.type &&& ic ≠ 0 ∧ rs ≤ seq_cache_key_timeline_frame_get env e ∧
      seq_cache_key_timeline_frame_get env e ≤ re
  · simp [h1]
  · by_cases h2 : e.type &&& isrc ≠ 0 ∧ e.strip = strip ∧
        rsc2 ≤ seq_cache_key_timeline_frame_get env e ∧
        seq_cache_key_timeline_frame_get env e ≤ rec2
    · simp [h1, h2]
    · simp [h1, h2]

/-- C6 (amended): with `force_strip_changed_range` false, the invalidation
removes exactly these entries — final-output entries (per the mask) whose
timeline frame lies in the INTERSECTION of the handle ranges of `strip` and
`strip_changed`, and intermediate source-stage entries (Raw, Preprocessed or
Composite, per the mask) that belong to `strip` and whose timeline frame
lies in the FULL handle range of `strip_changed` — the opposite pairing of
ranges to stages from the one the claim states.  The chain tail is reset. -/
theorem C6_invalidate_range_scope (env : Env) (c : SeqCache) (refs : Refs)
    (strip strip_changed mask j : Nat) (e : SeqCacheEntry)
    (hnod : (c.entries.map Prod.fst).Nodup)
    (hj : lookupId c.entries j = some e) :
    ∃ c2, (seq_cache_cleanup_strip env { cache := some c, refs := refs }
        strip strip_changed mask false).cache = some c2 ∧
      c2.last_key = none ∧
      ((lookupId c2.entries j).isSome = true ↔
        ¬((e.type &&& (mask &&& SEQ_CACHE_STORE_FINAL_OUT) ≠ 0 ∧
            max (env.stripLeft strip_changed) (env.stripLeft strip) ≤
              seq_cache_key_timeline_frame_get env e ∧
            seq_cache_key_timeline_frame_get env e ≤
              min (env.stripRight strip_changed) (env.stripRight strip)) ∨
          (e.type &&& (mask &&& (SEQ_CACHE_STORE_RAW ||| SEQ_CACHE_STORE_PREPROCESSED |||
              SEQ_CACHE_STORE_COMPOSITE)) ≠ 0 ∧ e.strip = strip ∧
            env.stripLeft strip_changed ≤ seq_cache_key_timeline_frame_get env e ∧
            seq_cache_key_timeline_frame_get env e ≤ env.stripRight strip_changed))) := by
  refine ⟨_, rfl, rfl, ?_⟩
  show (lookupId (cleanup_pass env strip
      (max (env.stripLeft strip_changed) (env.stripLeft strip))
      (min (env.stripRight strip_changed) (env.stripRight strip))
      (env.stripLeft strip_changed) (env.stripRight strip_changed)
      (mask &&& SEQ_CACHE_STORE_FINAL_OUT)
      (mask &&& (SEQ_CACHE_STORE_RAW ||| SEQ_CACHE_STORE_PREPROCESSED |||
        SEQ_CACHE_STORE_COMPOSITE))
      c.entries (c, refs)).1.entries j).isSome = true ↔ _
  rw [cleanup_pass_isSome]
  rw [any_cond_of_nodup c.entries j e
      (cleanup_should_remove env strip
        (max (env.stripLeft strip_changed) (env.stripLeft strip))
        (min (env.stripRight strip_changed) (env.stripRight strip))
        (env.stripLeft strip_changed) (env.stripRight strip_changed)
        (mask &&& SEQ_CACHE_STORE_FINAL_OUT)
        (mask &&& (SEQ_CACHE_STORE_RAW ||| SEQ_CACHE_STORE_PREPROCESSED |||
          SEQ_CACHE_STORE_COMPOSITE)))
      hnod hj]
  have hj2 : lookupId (c, refs).1.entries j = some e := hj
  rw [hj2]
  rw [← cleanup_should_remove_iff env strip
      (max (env.stripLeft strip_changed) (env.stripLeft strip))
      (min (env.stripRight strip_changed) (env.stripRight strip))
      (env.stripLeft strip_changed) (env.stripRight strip_changed)
      (mask &&& SEQ_CACHE_STORE_FINAL_OUT)
      (mask &&& (SEQ_CACHE_STORE_RAW ||| SEQ_CACHE_STORE_PREPROCESSED |||
        SEQ_CACHE_STORE_COMPOSITE)) e]
  simp

/-- Strip 1 occupies `[0, 10]`, strip 2 (the changed strip) `[5, 20]`, so
the intersection range is `[5, 10]` and the full changed range `[5, 20]`. -/
def env6 : Env :=
  { envBase with
    stripLeft := fun s => if s = 2 then 5 else 0,
    stripRight := fun s => if s = 2 then 20 else 10 }

/-- A final-output entry at timeline frame 15 (inside the full changed
range, outside the intersection) and a Raw entry of strip 1 at frame 12
(also inside the full changed range, outside the intersection). -/
def cacheC6 : SeqCache :=
  { entries := [(0, mkEntry 3 15 SEQ_CACHE_STORE_FINAL_OUT false none none 40),
                (1, mkEntry 1 12 SEQ_CACHE_STORE_RAW false none none 41)],
    last_key := none, next_id := 2, disk_cache := false }

/-- The claim pairs the ranges the other way around: it predicts the
final-output entry at frame 15 is removed (full changed range `[5, 20]`)
and the Raw entry at frame 12 survives (outside the intersection
`[5, 10]`); the code keeps the final-output entry and removes the Raw
one. -/
theorem C6_counterexample :
    ((seq_cache_cleanup_strip env6 { cache := some cacheC6, refs := refs0 } 1 2
        (SEQ_CACHE_STORE_FINAL_OUT ||| SEQ_CACHE_STORE_RAW) false).cache.map fun c2 =>
      ((lookupId c2.entries 0).isSome, (lookupId c2.entries 1).isSome)) =
      some (true, false) := by decide

/-- Witness for C6 on the concrete fixture: the final-output entry at
frame 15 survives because 15 exceeds the intersection's upper bound. -/
theorem C6_witness :
    ∃ c2, (seq_cache_cleanup_strip env6 { cache := some cacheC6, refs := refs0 }
        1 2 (SEQ_CACHE_STORE_FINAL_OUT ||| SEQ_CACHE_STORE_RAW) false).cache = some c2 ∧
      c2.last_key = none ∧
      ((lookupId c2.entries 0).isSome = true ↔
        ¬(((mkEntry 3 15 SEQ_CACHE_STORE_FINAL_OUT false none none 40).type &&&
            ((SEQ_CACHE_STORE_FINAL_OUT ||| SEQ_CACHE_STORE_RAW) &&&
              SEQ_CACHE_STORE_FINAL_OUT) ≠ 0 ∧
            max (env6.stripLeft 2) (env6.stripLeft 1) ≤
              seq_cache_key_timeline_frame_get env6
                (mkEntry 3 15 SEQ_CACHE_STORE_FINAL_OUT false none none 40) ∧
            seq_cache_key_timeline_frame_get env6
                (mkEntry 3 15 SEQ_CACHE_STORE_FINAL_OUT false none none 40) ≤
              min (env6.stripRight 2) (env6.stripRight 1)) ∨
          ((mkEntry 3 15 SEQ_CACHE_STORE_FINAL_OUT false none none 40).type &&&
            ((SEQ_CACHE_STORE_FINAL_OUT ||| SEQ_CACHE_STORE_RAW) &&&
              (SEQ_CACHE_STORE_RAW ||| SEQ_CACHE_STORE_PREPROCESSED |||
                SEQ_CACHE_STORE_COMPOSITE)) ≠ 0 ∧
            (mkEntry 3 15 SEQ_CACHE_STORE_FINAL_OUT false none none 40).strip = 1 ∧
            env6.stripLeft 2 ≤
              seq_cache_key_timeline_frame_get env6
                (mkEntry 3 15 SEQ_CACHE_STORE_FINAL_OUT false none none 40) ∧
            seq_cache_key_timeline_frame_get env6
                (mkEntry 3 15 SEQ_CACHE_STORE_FINAL_OUT false none none 40) ≤
              env6.stripRight 2))) :=
  C6_invalidate_range_scope env6 cacheC6 refs0 1 2
    (SEQ_CACHE_STORE_FINAL_OUT ||| SEQ_CACHE_STORE_RAW) 0
    (mkEntry 3 15 SEQ_CACHE_STORE_FINAL_OUT false none none 40)
    (by decide) (by decide)

/-! ### Claim C8 -/

/-- Identities visited by the backward temp-marking walk, read off the walk's
start state: the walk itself only flips `is_temp_cache`, which never changes
an entry's presence or the link fields the walk follows. -/
def chain_prev_ids : Nat → SeqCache → Option Nat → List Nat
  | 0, _, _ => []
  | _ + 1, _, none => []
  | fuel + 1, c, some b =>
    match lookupId c.entries b with
    | none => []
    | some e => b :: chain_prev_ids fuel c e.link_prev

/-- Identities visited by the forward temp-marking walk. -/
def chain_next_ids : Nat → SeqCache → Option Nat → List Nat
  | 0, _, _ => []
  | _ + 1, _, none => []
  | fuel + 1, c, some b =>
    match lookupId c.entries b with
    | none => []
    | some e => b :: chain_next_ids fuel c e.link_next

/-- The previous insertion's chain: the chain tail, its predecessors and its
successors, exactly as far as the two walks of
`seq_cache_set_temp_cache_linked` reach. -/
def tempChainIds (c : SeqCache) : List Nat :=
  match c.last_key with
  | none => []
  | some b =>
    chain_prev_ids (c.entries.length + 1) c (some b) ++
      chain_next_ids (c.entries.length + 1) c
        ((lookupId c.entries b).bind fun e => e.link_next)

theorem mark_temp_idem (x : SeqCacheEntry) :
    ({ { x with is_temp_cache := true } with is_temp_cache := true } : SeqCacheEntry) =
      { x with is_temp_cache := true } := rfl

theorem set_temp_walk_prev_length : ∀ (fuel : Nat) (c : SeqCache) (o : Option Nat),
    (set_temp_walk_prev fuel c o).entries.length = c.entries.length := by
  intro fuel
  induction fuel with
  | zero => intro c o; rfl
  | succ n ih =>
    intro c o
    cases o with
    | none => rfl
    | some b =>
      cases hb : lookupId c.entries b with
      | none => simp [set_temp_walk_prev, hb]
      | some e =>
        simp only [set_temp_walk_prev, hb]
        rw [ih]
        simp [setEntry_length]

theorem chain_prev_ids_congr : ∀ (fuel : Nat) (c' c : SeqCache),
    (∀ j, (lookupId c'.entries j).map (fun e => e.link_prev) =
      (lookupId c.entries j).map fun e => e.link_prev) →
    ∀ o : Option Nat, chain_prev_ids fuel c' o = chain_prev_ids fuel c o := by
  intro fuel
  induction fuel with
  | zero => intro c' c h o; rfl
  | succ n ih =>
    intro c' c h o
    cases o with
    | none => rfl
    | some b =>
      have hb := h b
      cases hl2 : lookupId c'.entries b with
      | none =>
        rw [hl2] at hb
        cases hl : lookupId c.entries b with
        | none => simp [chain_prev_ids, hl2, hl]
        | some e => rw [hl] at hb; simp at hb
      | some e2 =>
        rw [hl2] at hb
        cases hl : lookupId c.entries b with
        | none => rw [hl] at hb; simp at hb
        | some e =>
          rw [hl] at hb
          simp at hb
          simp only [chain_prev_ids, hl2, hl]
          rw [hb, ih c' c h e.link_prev]

theorem chain_next_ids_congr : ∀ (fuel : Nat) (c' c : SeqCache),
    (∀ j, (lookupId c'.entries j).map (fun e => e.link_next) =
      (lookupId c.entries j).map fun e => e.link_next) →
    ∀ o : Option Nat, chain_next_ids fuel c' o = chain_next_ids fuel c o := by
  intro fuel
  induction fuel with
  | zero => intro c' c h o; rfl
  | succ n ih =>
    intro c' c h o
    cases o with
    | none => rfl
    | some b =>
      have hb := h b
      cases hl2 : lookupId c'.entries b with
      | none =>
        rw [hl2] at hb
        cases hl : lookupId c.entries b with
        | none => simp [chain_next_ids, hl2, hl]
        | some e => rw [hl] at hb; simp at hb
      | some e2 =>
        rw [hl2] at hb
        cases hl : lookupId c.entries b with
        | none => rw [hl] at hb; simp at hb
        | some e =>
          rw [hl] at hb
          simp at hb
          simp only [chain_next_ids, hl2, hl]
          rw [hb, ih c' c h e.link_next]

theorem set_temp_walk_prev_lookup : ∀ (fuel : Nat) (c : SeqCache) (o : Option Nat) (j : Nat),
    lookupId (set_temp_walk_prev fuel c o).entries j =
      (lookupId c.entries j).map fun e =>
        if j ∈ chain_prev_ids fuel c o then { e with is_temp_cache := true } else e := by
  intro fuel
  induction fuel with
  | zero =>
    intro c o j
    simp only [set_temp_walk_prev, chain_prev_ids]
    cases lookupId c.entries j <;> simp
  | succ n ih =>
    intro c o j
    cases o with
    | none =>
      simp only [set_temp_walk_prev, chain_prev_ids]
      cases lookupId c.entries j <;> simp
    | some b =>
      cases hb : lookupId c.entries b with
      | none =>
        simp only [set_temp_walk_prev, chain_prev_ids, hb]
        cases lookupId c.entries j <;> simp
      | some e =>
        simp only [set_temp_walk_prev, chain_prev_ids, hb]
        rw [ih]
        have hids : chain_prev_ids n
            { c with entries := (setEntry c.entries b
                fun x => { x with is_temp_cache := true }) } e.link_prev =
            chain_prev_ids n c e.link_prev := by
          apply chain_prev_ids_congr
          intro i
          show (lookupId (setEntry c.entries b fun x => { x with is_temp_cache := true }) i).map
              (fun e2 => e2.link_prev) = (lookupId c.entries i).map fun e2 => e2.link_prev
          rw [lookupId_setEntry]
          by_cases hib : i = b
          · rw [if_pos hib]
            cases lookupId c.entries i <;> rfl
          · rw [if_neg hib]
        rw [hids]
        have hlook : lookupId
            ({ c with entries := (setEntry c.entries b
                fun x => { x with is_temp_cache := true }) }).entries j =
            if j = b then (lookupId c.entries j).map
              (fun x => { x with is_temp_cache := true })
            else lookupId c.entries j := lookupId_setEntry c.entries b _ j
        rw [hlook]
        by_cases hjb : j = b
        · rw [if_pos hjb]
          cases hcj : lookupId c.entries j with
          | none => rfl
          | some x =>
            by_cases hmem : j ∈ chain_prev_ids n c e.link_prev
            · simp [hjb, hmem, mark_temp_idem]
            · simp [hjb, hmem, mark_temp_idem]
        · rw [if_neg hjb]
          cases hcj : lookupId c.entries j with
          | none => rfl
          | some x =>
            by_cases hmem : j ∈ chain_prev_ids n c e.link_prev
            · simp [hjb, hmem]
            · simp [hjb, hmem]

theorem set_temp_walk_next_lookup : ∀ (fuel : Nat) (c : SeqCache) (o : Option Nat) (j : Nat),
    lookupId (set_temp_walk_next fuel c o).entries j =
      (lookupId c.entries j).map fun e =>
        if j ∈ chain_next_ids fuel c o then { e with is_temp_cache := true } else e := by
  intro fuel
  induction fuel with
  | zero =>
    intro c o j
    simp only [set_temp_walk_next, chain_next_ids]
    cases lookupId c.entries j <;> simp
  | succ n ih =>
    intro c o j
    cases o with
    | none =>
      simp only [set_temp_walk_next, chain_next_ids]
      cases lookupId c.entries j <;> simp
    | some b =>
      cases hb : lookupId c.entries b with
      | none =>
        simp only [set_temp_walk_next, chain_next_ids, hb]
        cases lookupId c.entries j <;> simp
      | some e =>
        simp only [set_temp_walk_next, chain_next_ids, hb]
        rw [ih]
        have hids : chain_next_ids n
            { c with entries := (setEntry c.entries b
                fun x => { x with is_temp_cache := true }) } e.link_next =
            chain_next_ids n c e.link_next := by
          apply chain_next_ids_congr
          intro i
          show (lookupId (setEntry c.entries b fun x => { x with is_temp_cache := true }) i).map
              (fun e2 => e2.link_next) = (lookupId c.entries i).map fun e2 => e2.link_next
          rw [lookupId_setEntry]
          by_cases hib : i = b
          · rw [if_pos hib]
            cases lookupId c.entries i <;> rfl
          · rw [if_neg hib]
        rw [hids]
        have hlook : lookupId
            ({ c with entries := (setEntry c.entries b
                fun x => { x with is_temp_cache := true }) }).entries j =
            if j = b then (lookupId c.entries j).map
              (fun x => { x with is_temp_cache := true })
            else lookupId c.entries j := lookupId_setEntry c.entries b _ j
        rw [hlook]
        by_cases hjb : j = b
        · rw [if_pos hjb]
          cases hcj : lookupId c.entries j with
          | none => rfl
          | some x =>
            by_cases hmem : j ∈ chain_next_ids n c e.link_next
            · simp [hjb, hmem, mark_temp_idem]
            · simp [hjb, hmem, mark_temp_idem]
        · rw [if_neg hjb]
          cases hcj : lookupId c.entries j with
          | none => rfl
          | some x =>
            by_cases hmem : j ∈ chain_next_ids n c e.link_next
            · simp [hjb, hmem]
            · simp [hjb, hmem]

theorem set_temp_cache_linked_lookup (c : SeqCache) (j : Nat) :
    lookupId (seq_cache_set_temp_cache_linked c c.last_key).entries j =
      (lookupId c.entries j).map fun e =>
        if j ∈ tempChainIds c then { e with is_temp_cache := true } else e := by
  cases hlk : c.last_key with
  | none =>
    simp only [seq_cache_set_temp_cache_linked, tempChainIds, hlk]
    cases lookupId c.entries j <;> simp
  | some b =>
    simp only [seq_cache_set_temp_cache_linked, tempChainIds, hlk]
    rw [set_temp_walk_next_lookup]
    rw [set_temp_walk_prev_length]
    have hptw : ∀ i,
        (lookupId (set_temp_walk_prev (c.entries.length + 1) c (some b)).entries i).map
          (fun e => e.link_next) =
        (lookupId c.entries i).map fun e => e.link_next := by
      intro i
      rw [set_temp_walk_prev_lookup]
      cases lookupId c.entries i with
      | none => rfl
      | some x =>
        by_cases hm : i ∈ chain_prev_ids (c.entries.length + 1) c (some b) <;> simp [hm]
    rw [chain_next_ids_congr (c.entries.length + 1)
      (set_temp_walk_prev (c.entries.length + 1) c (some b)) c hptw
      ((lookupId c.entries b).bind fun e => e.link_next)]
    rw [set_temp_walk_prev_lookup]
    cases hcj : lookupId c.entries j with
    | none => rfl
    | some x =>
      by_cases hp : j ∈ chain_prev_ids (c.entries.length + 1) c (some b) <;>
        by_cases hn : j ∈ chain_next_ids (c.entries.length + 1) c
          ((lookupId c.entries b).bind fun e => e.link_next) <;>
          simp [hp, hn, List.mem_append, mark_temp_idem]

/-- C8: refuted on the no-candidate half of its scope.  When the cache is
over budget and the candidate scan finds no evictable entry (every entry
temp or non-tail), `seq_cache_get_item_for_removal` hands two null
candidates to `seq_cache_choose_key`, which computes both candidate frames
before its null checks: the store call crashes on the null dereference
instead of returning `false` and downgrading the previous insertion's
chain. -/
theorem C8_exhaustion_no_candidate_crash (env : Env) (c : SeqCache) (refs : Refs)
    (context : RenderData) (strip : Nat) (timeline_frame : Int) (type ibuf : Nat)
    (hfull : seq_cache_is_full env c = true)
    (hscan : c.entries.foldl (gifr_step env) (none, none) = (none, none)) :
    seq_cache_put_if_possible env { cache := some c, refs := refs } context strip
      timeline_frame type ibuf = none := by
  have hitem : seq_cache_get_item_for_removal env c = none := by
    simp [seq_cache_get_item_for_removal, hscan, seq_cache_choose_key]
  have hrl : recycle_loop env (c.entries.length + 1) c refs = none := by
    simp [recycle_loop, hfull, hitem]
  have hri : seq_cache_recycle_item env { cache := some c, refs := refs } = none := by
    simp [seq_cache_recycle_item, hrl]
  simp [seq_cache_put_if_possible, hri]

/-- Any memory use at all exceeds the zero budget. -/
def env8 : Env := { envBase with memBase := 1 }

/-- A two-entry chain 0 → 1 whose tail has a stale forward pointer (99,
absent): both entries are non-tails for the candidate scan, so no eviction
candidate exists while the cache is over budget. -/
def cacheC8 : SeqCache :=
  { entries := [(0, mkEntry 0 1 SEQ_CACHE_STORE_RAW false none (some 1) 50),
                (1, mkEntry 0 2 SEQ_CACHE_STORE_RAW false (some 0) (some 99) 51)],
    last_key := some 1, next_id := 2, disk_cache := false }

/-- Witness for C8: on the full no-candidate cache the store call crashes
(null dereference in the candidate chooser) rather than reporting
`false`. -/
theorem C8_witness :
    seq_cache_put_if_possible env8 { cache := some cacheC8, refs := refs0 } ctx0 0 0
      SEQ_CACHE_STORE_RAW 60 = none :=
  C8_exhaustion_no_candidate_crash env8 cacheC8 refs0 ctx0 0 0 SEQ_CACHE_STORE_RAW 60
    (by decide) (by decide)
